import Mathlib

/-!
Verification development for the ESPN NFL data pipeline.

The definitions below are a shallow embedding of the two programs under
review: the JSON flattener of espn_data_processor.py, which walks parsed
JSON documents and accumulates twelve in-memory tables with per-table
dedup sets, and the workbook assembler of csv_to_excel.py, which turns a
directory of delimited files into sheets of one workbook.

JSON documents are modelled by the inductive type Json.  The accessor
Json.get models the Python idiom d.get(key) combined with the
default-to-empty-object chaining used throughout the source: a lookup on
an absent key, or on a value that is not an object, yields Json.null, so
a chain of accesses falls back level by level exactly as the chained
dict.get(key, default) calls of the source do.  Python truthiness tests
are modelled by Json.isTruthy, and set membership of the dedup sets by
Json.memb, which compares with the structural equality Json.beq.
-/

inductive Json where
  | null
  | bool (b : Bool)
  | num (n : Int)
  | str (s : String)
  | arr (elems : List Json)
  | obj (fields : List (String × Json))

mutual

/-- Structural equality of JSON values, modelling the equality used by
Python set membership tests on identifiers. -/
def Json.beq : Json → Json → Bool
  | .null, .null => true
  | .bool a, .bool b => a == b
  | .num a, .num b => a == b
  | .str a, .str b => a == b
  | .arr as, .arr bs => Json.beqList as bs
  | .obj as, .obj bs => Json.beqFields as bs
  | _, _ => false

/-- Elementwise structural equality of JSON arrays. -/
def Json.beqList : List Json → List Json → Bool
  | [], [] => true
  | a :: as, b :: bs => Json.beq a b && Json.beqList as bs
  | _, _ => false

/-- Fieldwise structural equality of JSON objects. -/
def Json.beqFields : List (String × Json) → List (String × Json) → Bool
  | [], [] => true
  | (k1, v1) :: as, (k2, v2) :: bs => k1 == k2 && Json.beq v1 v2 && Json.beqFields as bs
  | _, _ => false

end

/-- Membership of a JSON value in a list of JSON values, modelling the
Python membership test of the dedup sets of the processor. -/
def Json.memb (k : Json) (ids : List Json) : Bool :=
  ids.any (fun j => Json.beq j k)

/-- Python truthiness of a JSON value: None, False, 0, the empty string,
the empty array and the empty object are falsy, everything else truthy. -/
def Json.isTruthy : Json → Bool
  | .null => false
  | .bool b => b
  | .num n => n != 0
  | .str s => !(s == "")
  | .arr xs => !xs.isEmpty
  | .obj fs => !fs.isEmpty

/-- Field lookup with an explicit default, modelling the Python call
d.get(key, default).  On a non-object the default is returned, matching
the empty-object fallback chains of the source. -/
def Json.getD (j : Json) (k : String) (d : Json) : Json :=
  match j with
  | .obj fields =>
    match fields.find? (fun f => f.1 == k) with
    | some f => f.2
    | none => d
  | _ => d

/-- Field lookup defaulting to null, modelling d.get(key): an absent key
resolves to None.  Chained through Json.get, an absent intermediate
object makes every deeper access resolve to null as well. -/
def Json.get (j : Json) (k : String) : Json :=
  j.getD k .null

/-- Array-valued field lookup, modelling the iteration idiom
for x in d.get(key, []): a missing or non-array value yields the empty
list of elements. -/
def Json.getArr (j : Json) (k : String) : List Json :=
  match j.getD k (.arr []) with
  | .arr xs => xs
  | _ => []

/-- The string content of a JSON string, used when joining broadcaster
names into one text field. -/
def Json.strOf : Json → String
  | .str s => s
  | _ => ""

/-- Row of the leagues lookup table, one column per key of the league
record dict built in extract_leagues. -/
structure LeagueRecord where
  league_id : Json
  league_uid : Json
  name : Json
  abbreviation : Json
  slug : Json
  season_year : Json
  season_start_date : Json
  season_end_date : Json
  season_display_name : Json
  season_type_id : Json
  season_type_name : Json
  calendar_type : Json
  calendar_start_date : Json
  calendar_end_date : Json

/-- Row of the teams lookup table. -/
structure TeamRecord where
  team_id : Json
  team_uid : Json
  location : Json
  name : Json
  abbreviation : Json
  display_name : Json
  short_display_name : Json
  color : Json
  alternate_color : Json
  is_active : Json
  venue_id : Json
  logo_url : Json

/-- Row of the venues lookup table. -/
structure VenueRecord where
  venue_id : Json
  full_name : Json
  city : Json
  state : Json
  country : Json
  is_indoor : Json

/-- Row of the players lookup table. -/
structure PlayerRecord where
  player_id : Json
  full_name : Json
  display_name : Json
  short_name : Json
  jersey_number : Json
  position_abbreviation : Json
  team_id : Json
  is_active : Json
  headshot_url : Json

/-- Row of the positions lookup table. -/
structure PositionRecord where
  position_abbreviation : Json
  position_name : Json

/-- Row of the game_status_types lookup table. -/
structure StatusTypeRecord where
  status_type_id : Json
  status_name : Json
  status_state : Json
  is_completed : Json
  description : Json

/-- Row of the games fact table. -/
structure GameRecord where
  event_id : Json
  event_uid : Json
  event_date : Json
  event_name : Json
  short_name : Json
  season_year : Json
  season_type : Json
  season_slug : Json
  week_number : Json

/-- Row of the competitions fact table. -/
structure CompetitionRecord where
  competition_id : Json
  competition_uid : Json
  event_id : Json
  competition_date : Json
  attendance : Json
  venue_id : Json
  is_neutral_site : Json
  is_conference_competition : Json
  status_clock : Json
  status_display_clock : Json
  status_period : Json
  status_type_id : Json
  is_tbd_flex : Json

/-- Row of the team_game_stats fact table. -/
structure TeamGameStatRecord where
  event_id : Json
  competition_id : Json
  team_id : Json
  home_away : Json
  score : Json
  order : Json

/-- Row of the player_game_leaders fact table. -/
structure PlayerGameLeaderRecord where
  event_id : Json
  team_id : Json
  player_id : Json
  category_name : Json
  display_name : Json
  abbreviation : Json
  display_value : Json
  numeric_value : Json

/-- Row of the game_broadcasts fact table; network_names is the joined
text field produced from the list of broadcaster names. -/
structure BroadcastRecord where
  event_id : Json
  competition_id : Json
  market : Json
  network_names : String

/-- Row of the team_records fact table. -/
structure TeamRecordRow where
  event_id : Json
  team_id : Json
  record_name : Json
  record_abbreviation : Json
  record_type : Json
  record_summary : Json

/-- In-memory state of ESPNDataProcessor: the twelve table lists and the
six dedup identifier sets initialised in the constructor.  The Python
sets are modelled as lists of JSON values queried through Json.memb. -/
@[ext]
structure ProcessorState where
  leagues : List LeagueRecord
  teams : List TeamRecord
  venues : List VenueRecord
  players : List PlayerRecord
  positions : List PositionRecord
  game_status_types : List StatusTypeRecord
  games : List GameRecord
  competitions : List CompetitionRecord
  team_game_stats : List TeamGameStatRecord
  player_game_leaders : List PlayerGameLeaderRecord
  game_broadcasts : List BroadcastRecord
  team_records : List TeamRecordRow
  team_ids : List Json
  league_ids : List Json
  venue_ids : List Json
  player_ids : List Json
  position_names : List Json
  status_type_ids : List Json

/-- The state set up by the constructor: every table and every dedup set
starts empty. -/
def initState : ProcessorState :=
  ⟨[], [], [], [], [], [], [], [], [], [], [], [], [], [], [], [], [], []⟩

/-- The league row dict literal of extract_leagues. -/
def leagueRecordOf (league : Json) : LeagueRecord :=
  { league_id := league.get "id"
    league_uid := league.get "uid"
    name := league.get "name"
    abbreviation := league.get "abbreviation"
    slug := league.get "slug"
    season_year := (league.get "season").get "year"
    season_start_date := (league.get "season").get "startDate"
    season_end_date := (league.get "season").get "endDate"
    season_display_name := (league.get "season").get "displayName"
    season_type_id := ((league.get "season").get "type").get "id"
    season_type_name := ((league.get "season").get "type").get "name"
    calendar_type := league.get "calendarType"
    calendar_start_date := league.get "calendarStartDate"
    calendar_end_date := league.get "calendarEndDate" }

/-- Loop body of extract_leagues: a league with a truthy unseen id is
added to the dedup set and appended to the leagues table. -/
def leagueStep (s : ProcessorState) (league : Json) : ProcessorState :=
  let league_id := league.get "id"
  if league_id.isTruthy && !(Json.memb league_id s.league_ids) then
    { s with
      league_ids := league_id :: s.league_ids
      leagues := s.leagues ++ [leagueRecordOf league] }
  else s

/-- Model of extract_leagues: iterate the top-level list of leagues. -/
def extract_leagues (s : ProcessorState) (data : Json) : ProcessorState :=
  (data.getArr "leagues").foldl leagueStep s

/-- The team row dict literal of extract_teams_from_events. -/
def teamRecordOf (team : Json) : TeamRecord :=
  { team_id := team.get "id"
    team_uid := team.get "uid"
    location := team.get "location"
    name := team.get "name"
    abbreviation := team.get "abbreviation"
    display_name := team.get "displayName"
    short_display_name := team.get "shortDisplayName"
    color := team.get "color"
    alternate_color := team.get "alternateColor"
    is_active := team.get "isActive"
    venue_id := (team.get "venue").get "id"
    logo_url := team.getD "logo" (.str "") }

/-- Innermost loop body of extract_teams_from_events, over one
competitor. -/
def teamStep (s : ProcessorState) (competitor : Json) : ProcessorState :=
  let team := competitor.get "team"
  let team_id := team.get "id"
  if team_id.isTruthy && !(Json.memb team_id s.team_ids) then
    { s with
      team_ids := team_id :: s.team_ids
      teams := s.teams ++ [teamRecordOf team] }
  else s

/-- Middle loop of extract_teams_from_events, over one competition. -/
def teamsOfCompetition (s : ProcessorState) (competition : Json) : ProcessorState :=
  (competition.getArr "competitors").foldl teamStep s

/-- Outer loop of extract_teams_from_events, over one event. -/
def teamsOfEvent (s : ProcessorState) (event : Json) : ProcessorState :=
  (event.getArr "competitions").foldl teamsOfCompetition s

/-- Model of extract_teams_from_events: events, then competitions, then
competitors. -/
def extract_teams_from_events (s : ProcessorState) (data : Json) : ProcessorState :=
  (data.getArr "events").foldl teamsOfEvent s

/-- The venue row dict literal of extract_venues_from_events, with the
nested address object flattened. -/
def venueRecordOf (venue : Json) : VenueRecord :=
  let address := venue.getD "address" (.obj [])
  { venue_id := venue.get "id"
    full_name := venue.get "fullName"
    city := address.get "city"
    state := address.get "state"
    country := address.get "country"
    is_indoor := venue.get "indoor" }

/-- Loop body of extract_venues_from_events, over one competition. -/
def venueStep (s : ProcessorState) (competition : Json) : ProcessorState :=
  let venue := competition.get "venue"
  let venue_id := venue.get "id"
  if venue_id.isTruthy && !(Json.memb venue_id s.venue_ids) then
    { s with
      venue_ids := venue_id :: s.venue_ids
      venues := s.venues ++ [venueRecordOf venue] }
  else s

/-- Outer loop of extract_venues_from_events, over one event. -/
def venuesOfEvent (s : ProcessorState) (event : Json) : ProcessorState :=
  (event.getArr "competitions").foldl venueStep s

/-- Model of extract_venues_from_events. -/
def extract_venues_from_events (s : ProcessorState) (data : Json) : ProcessorState :=
  (data.getArr "events").foldl venuesOfEvent s

/-- The position row dict literal built inside process_athlete; only the
abbreviation is available, so it serves as both columns. -/
def positionRecordOf (position_abbr : Json) : PositionRecord :=
  { position_abbreviation := position_abbr
    position_name := position_abbr }

/-- The player row dict literal built inside process_athlete. -/
def playerRecordOf (athlete : Json) : PlayerRecord :=
  { player_id := athlete.get "id"
    full_name := athlete.get "fullName"
    display_name := athlete.get "displayName"
    short_name := athlete.get "shortName"
    jersey_number := athlete.get "jersey"
    position_abbreviation := (athlete.get "position").get "abbreviation"
    team_id := (athlete.get "team").get "id"
    is_active := athlete.get "active"
    headshot_url := athlete.getD "headshot" (.str "") }

/-- Model of the method processing one athlete: a falsy athlete value
returns immediately; a truthy unseen player id is recorded, and its
position abbreviation is recorded as well when itself truthy and
unseen. -/
def process_athlete (s : ProcessorState) (athlete : Json) : ProcessorState :=
  if !athlete.isTruthy then s
  else
    let player_id := athlete.get "id"
    if player_id.isTruthy && !(Json.memb player_id s.player_ids) then
      let position_abbr := (athlete.get "position").get "abbreviation"
      let s1 :=
        if position_abbr.isTruthy && !(Json.memb position_abbr s.position_names) then
          { s with
            position_names := position_abbr :: s.position_names
            positions := s.positions ++ [positionRecordOf position_abbr] }
        else s
      { s1 with
        player_ids := player_id :: s1.player_ids
        players := s1.players ++ [playerRecordOf athlete] }
    else s

/-- One leader entry: the athlete object is looked up and processed. -/
def athleteStep (s : ProcessorState) (leader : Json) : ProcessorState :=
  process_athlete s (leader.get "athlete")

/-- One leader category: iterate its leader entries. -/
def leaderCategoryStep (s : ProcessorState) (leader_category : Json) : ProcessorState :=
  (leader_category.getArr "leaders").foldl athleteStep s

/-- Competitor-side athlete source of extract_players_and_positions. -/
def playersOfCompetitor (s : ProcessorState) (competitor : Json) : ProcessorState :=
  (competitor.getArr "leaders").foldl leaderCategoryStep s

/-- Both athlete sources of one competition: competitor leader lists
first, then the competition-level leader list. -/
def playersOfCompetition (s : ProcessorState) (competition : Json) : ProcessorState :=
  (competition.getArr "leaders").foldl leaderCategoryStep
    ((competition.getArr "competitors").foldl playersOfCompetitor s)

/-- Outer loop of extract_players_and_positions, over one event. -/
def playersOfEvent (s : ProcessorState) (event : Json) : ProcessorState :=
  (event.getArr "competitions").foldl playersOfCompetition s

/-- Model of extract_players_and_positions. -/
def extract_players_and_positions (s : ProcessorState) (data : Json) : ProcessorState :=
  (data.getArr "events").foldl playersOfEvent s

/-- The status type row dict literal of extract_game_status_types. -/
def statusRecordOf (status_type : Json) : StatusTypeRecord :=
  { status_type_id := status_type.get "id"
    status_name := status_type.get "name"
    status_state := status_type.get "state"
    is_completed := status_type.get "completed"
    description := status_type.get "description" }

/-- Loop body of extract_game_status_types, over one competition. -/
def statusStep (s : ProcessorState) (competition : Json) : ProcessorState :=
  let status := competition.get "status"
  let status_type := status.get "type"
  let status_id := status_type.get "id"
  if status_id.isTruthy && !(Json.memb status_id s.status_type_ids) then
    { s with
      status_type_ids := status_id :: s.status_type_ids
      game_status_types := s.game_status_types ++ [statusRecordOf status_type] }
  else s

/-- Outer loop of extract_game_status_types, over one event. -/
def statusOfEvent (s : ProcessorState) (event : Json) : ProcessorState :=
  (event.getArr "competitions").foldl statusStep s

/-- Model of extract_game_status_types. -/
def extract_game_status_types (s : ProcessorState) (data : Json) : ProcessorState :=
  (data.getArr "events").foldl statusOfEvent s

/-- The game row dict literal of extract_games_and_competitions; note
the week_number column reads number below the week object so that an
absent week resolves to null. -/
def gameRecordOf (event : Json) : GameRecord :=
  { event_id := event.get "id"
    event_uid := event.get "uid"
    event_date := event.get "date"
    event_name := event.get "name"
    short_name := event.get "shortName"
    season_year := (event.get "season").get "year"
    season_type := (event.get "season").get "type"
    season_slug := (event.get "season").get "slug"
    week_number := (event.get "week").get "number" }

/-- The competition row dict literal of extract_games_and_competitions. -/
def competitionRecordOf (competition : Json) (event_id : Json) : CompetitionRecord :=
  let status := competition.get "status"
  { competition_id := competition.get "id"
    competition_uid := competition.get "uid"
    event_id := event_id
    competition_date := competition.get "date"
    attendance := competition.get "attendance"
    venue_id := (competition.get "venue").get "id"
    is_neutral_site := competition.get "neutralSite"
    is_conference_competition := competition.get "conferenceCompetition"
    status_clock := status.get "clock"
    status_display_clock := status.get "displayClock"
    status_period := status.get "period"
    status_type_id := (status.get "type").get "id"
    is_tbd_flex := status.get "isTBDFlex" }

/-- The team stats row dict literal of the team game stats extraction;
appended unconditionally for every competitor. -/
def teamStatRecordOf (competition competitor event_id team_id : Json) : TeamGameStatRecord :=
  { event_id := event_id
    competition_id := competition.get "id"
    team_id := team_id
    home_away := competitor.get "homeAway"
    score := competitor.get "score"
    order := competitor.get "order" }

/-- The team record row dict literal of the team records extraction. -/
def teamRecordRowOf (record event_id team_id : Json) : TeamRecordRow :=
  { event_id := event_id
    team_id := team_id
    record_name := record.get "name"
    record_abbreviation := record.get "abbreviation"
    record_type := record.get "type"
    record_summary := record.get "summary" }

/-- The leader row dict literal of the player leaders extraction. -/
def leaderRecordOf (leader_category leader event_id team_id : Json) : PlayerGameLeaderRecord :=
  let athlete := leader.get "athlete"
  { event_id := event_id
    team_id := team_id
    player_id := athlete.get "id"
    category_name := leader_category.get "name"
    display_name := leader_category.get "displayName"
    abbreviation := leader_category.get "abbreviation"
    display_value := leader.get "displayValue"
    numeric_value := leader.get "value" }

/-- The broadcast row dict literal: the broadcaster names array is
joined into one comma-and-space separated text field. -/
def broadcastRecordOf (broadcast competition event_id : Json) : BroadcastRecord :=
  { event_id := event_id
    competition_id := competition.get "id"
    market := broadcast.get "market"
    network_names := String.intercalate ", " ((broadcast.getArr "names").map Json.strOf) }

/-- One leader entry of the player leaders extraction: append one row. -/
def playerLeaderEntryStep (event_id team_id leader_category : Json)
    (s : ProcessorState) (leader : Json) : ProcessorState :=
  { s with
    player_game_leaders :=
      s.player_game_leaders ++ [leaderRecordOf leader_category leader event_id team_id] }

/-- One leader category of the player leaders extraction. -/
def playerLeaderCategoryStep (event_id team_id : Json)
    (s : ProcessorState) (leader_category : Json) : ProcessorState :=
  (leader_category.getArr "leaders").foldl
    (playerLeaderEntryStep event_id team_id leader_category) s

/-- Model of the player leaders extraction for one competitor. -/
def extract_player_leaders (s : ProcessorState) (competitor event_id team_id : Json) :
    ProcessorState :=
  (competitor.getArr "leaders").foldl (playerLeaderCategoryStep event_id team_id) s

/-- One record entry of the team records extraction: append one row. -/
def teamRecordStep (event_id team_id : Json) (s : ProcessorState) (record : Json) :
    ProcessorState :=
  { s with team_records := s.team_records ++ [teamRecordRowOf record event_id team_id] }

/-- One competitor of the team game stats extraction: append the stats
row unconditionally, then the record rows, then the leader rows. -/
def statCompetitorStep (competition event_id : Json) (s : ProcessorState)
    (competitor : Json) : ProcessorState :=
  let team_id := (competitor.get "team").get "id"
  let s1 :=
    { s with
      team_game_stats :=
        s.team_game_stats ++ [teamStatRecordOf competition competitor event_id team_id] }
  let s2 := (competitor.getArr "records").foldl (teamRecordStep event_id team_id) s1
  extract_player_leaders s2 competitor event_id team_id

/-- Model of the team game stats extraction for one competition. -/
def extract_team_game_stats (s : ProcessorState) (competition event_id : Json) :
    ProcessorState :=
  (competition.getArr "competitors").foldl (statCompetitorStep competition event_id) s

/-- One broadcast entry: append one broadcast row. -/
def broadcastStep (competition event_id : Json) (s : ProcessorState) (broadcast : Json) :
    ProcessorState :=
  { s with game_broadcasts := s.game_broadcasts ++ [broadcastRecordOf broadcast competition event_id] }

/-- Model of the broadcasts extraction for one competition. -/
def extract_game_broadcasts (s : ProcessorState) (competition event_id : Json) :
    ProcessorState :=
  (competition.getArr "broadcasts").foldl (broadcastStep competition event_id) s

/-- One competition of extract_games_and_competitions: append the
competition row, then run the stats and broadcasts extractions. -/
def gameCompetitionStep (event_id : Json) (s : ProcessorState) (competition : Json) :
    ProcessorState :=
  let s1 := { s with competitions := s.competitions ++ [competitionRecordOf competition event_id] }
  let s2 := extract_team_game_stats s1 competition event_id
  extract_game_broadcasts s2 competition event_id

/-- One event of extract_games_and_competitions: append the game row
unconditionally, then handle each competition. -/
def gameEventStep (s : ProcessorState) (event : Json) : ProcessorState :=
  let s1 := { s with games := s.games ++ [gameRecordOf event] }
  (event.getArr "competitions").foldl (gameCompetitionStep (event.get "id")) s1

/-- Model of extract_games_and_competitions. -/
def extract_games_and_competitions (s : ProcessorState) (data : Json) : ProcessorState :=
  (data.getArr "events").foldl gameEventStep s

/-- One iteration of process_multiple_files: run the six extraction
steps of the source in order on one parsed document.  The clearing step
of the source is a pass statement and is omitted. -/
def processDocument (s : ProcessorState) (data : Json) : ProcessorState :=
  extract_games_and_competitions
    (extract_game_status_types
      (extract_players_and_positions
        (extract_venues_from_events
          (extract_teams_from_events
            (extract_leagues s data)
            data)
          data)
        data)
      data)
    data

/-- Model of process_multiple_files: process the parsed documents in
order, accumulating one shared state. -/
def process_multiple_files (docs : List Json) : ProcessorState :=
  docs.foldl processDocument initState

/-- The ordered table list of write_csv_files: the six lookup tables,
then the six fact tables, each paired with its row count. -/
def tablesOf (s : ProcessorState) : List (String × Nat) :=
  [("leagues", s.leagues.length),
   ("teams", s.teams.length),
   ("venues", s.venues.length),
   ("players", s.players.length),
   ("positions", s.positions.length),
   ("game_status_types", s.game_status_types.length),
   ("games", s.games.length),
   ("competitions", s.competitions.length),
   ("team_game_stats", s.team_game_stats.length),
   ("player_game_leaders", s.player_game_leaders.length),
   ("game_broadcasts", s.game_broadcasts.length),
   ("team_records", s.team_records.length)]

/-- Model of write_csv_files.  The environment writeOk says whether the
delimited file of a given table can be written.  An empty table is
skipped without touching the file system.  A failing write raises: the
loop body has no handler, so the remaining tables are not attempted and
the error propagates.  The result is the list of tables written, in
order, together with the propagated error if any. -/
def write_csv_files (writeOk : String → Bool) :
    List (String × Nat) → List String × Option String
  | [] => ([], none)
  | (table_name, count) :: rest =>
    if count ≠ 0 then
      if writeOk table_name then
        let r := write_csv_files writeOk rest
        (table_name :: r.1, r.2)
      else ([], some table_name)
    else write_csv_files writeOk rest

/-- Model of process_all: flatten every document, then write the tables.
The try block of the source catches an exception only to print it and
re-raise, so a write error still propagates to the caller. -/
def process_all (docs : List Json) (writeOk : String → Bool) :
    List String × Option String :=
  write_csv_files writeOk (tablesOf (process_multiple_files docs))

/-- Sheet naming of csv_to_excel: the file stem, truncated to the fixed
31 character limit of workbook sheet names when longer. -/
def sheet_name (stem : String) : String :=
  if stem.length > 31 then stem.take 31 else stem

/-- The stem of a delimited file name, modelling csv_file.stem: the
names reaching the loop come from a glob over the csv extension, so the
stem drops that trailing four-character extension, checked and removed
at the character level. -/
def fileStem (file : String) : String :=
  if file.data.reverse.take 4 = ['v', 's', 'c', '.'] then
    String.mk (file.data.take (file.data.length - 4))
  else file

/-- File ordering of csv_to_excel: the sorted builtin over the file
names themselves, extension included, modelled as a lexicographic
merge sort. -/
def sortedFiles (files : List String) : List String :=
  files.mergeSort (fun a b => decide (a ≤ b))

/-- Loop body of csv_to_excel over one file name: parse the file; on
success append one sheet named by the truncated stem of the file name,
on a parse error log and skip. -/
def sheetStep {α : Type} (parse : String → Option α)
    (sheets : List (String × α)) (file : String) : List (String × α) :=
  match parse file with
  | some t => sheets ++ [(sheet_name (fileStem file), t)]
  | none => sheets

/-- Model of csv_to_excel: the files are visited in sorted order and
each parseable file contributes one sheet. -/
def csv_to_excel {α : Type} (parse : String → Option α) (files : List String) :
    List (String × α) :=
  (sortedFiles files).foldl (sheetStep parse) []

/-- Pure companion of the lookup extraction loops: given the dedup set
so far and the candidate objects in document order, return the rows the
loop appends and the final dedup set.  A candidate is recorded exactly
when its key is truthy and unseen; the first occurrence wins. -/
def dedupRows {ρ : Type} (rec : Json → ρ) (key : Json → Json) :
    List Json → List Json → List ρ × List Json
  | ids, [] => ([], ids)
  | ids, c :: cs =>
    if (key c).isTruthy && !(Json.memb (key c) ids) then
      let r := dedupRows rec key (key c :: ids) cs
      (rec c :: r.1, r.2)
    else dedupRows rec key ids cs

/-- Pure companion of the athlete processing loop: given the player id
set, the position name set and the athlete objects in document order,
return the player rows, the position rows and the two final sets. -/
def playersAux : List Json → List Json → List Json →
    List PlayerRecord × List PositionRecord × List Json × List Json
  | pids, pnames, [] => ([], [], pids, pnames)
  | pids, pnames, athlete :: rest =>
    if athlete.isTruthy then
      let player_id := athlete.get "id"
      if player_id.isTruthy && !(Json.memb player_id pids) then
        let position_abbr := (athlete.get "position").get "abbreviation"
        if position_abbr.isTruthy && !(Json.memb position_abbr pnames) then
          let r := playersAux (player_id :: pids) (position_abbr :: pnames) rest
          (playerRecordOf athlete :: r.1, positionRecordOf position_abbr :: r.2.1, r.2.2)
        else
          let r := playersAux (player_id :: pids) pnames rest
          (playerRecordOf athlete :: r.1, r.2)
      else playersAux pids pnames rest
    else playersAux pids pnames rest

/-- The league candidates of one document. -/
def leagueCandidates (data : Json) : List Json :=
  data.getArr "leagues"

/-- The competitions of one document, flattened in visit order. -/
def docCompetitions (data : Json) : List Json :=
  ((data.getArr "events").flatMap (fun e => e.getArr "competitions"))

/-- The team candidates of one document: every competitor object under
every competition of every event, in visit order. -/
def teamCandidates (data : Json) : List Json :=
  (docCompetitions data).flatMap (fun c => c.getArr "competitors")

/-- The key of a team candidate. -/
def teamKey (competitor : Json) : Json :=
  (competitor.get "team").get "id"

/-- The key of a venue candidate. -/
def venueKey (competition : Json) : Json :=
  (competition.get "venue").get "id"

/-- The key of a status type candidate. -/
def statusKey (competition : Json) : Json :=
  ((competition.get "status").get "type").get "id"

/-- The athlete objects contributed by one competition: the leader lists
of its competitors first, then its own leader list. -/
def competitionAthletes (competition : Json) : List Json :=
  (((competition.getArr "competitors").flatMap (fun comp => comp.getArr "leaders")).flatMap
      (fun cat => cat.getArr "leaders")).map (fun leader => leader.get "athlete") ++
    (((competition.getArr "leaders")).flatMap (fun cat => cat.getArr "leaders")).map
      (fun leader => leader.get "athlete")

/-- The athlete candidates of one document, in visit order. -/
def athleteCandidates (data : Json) : List Json :=
  (docCompetitions data).flatMap competitionAthletes

/-- The game rows one document contributes: one per event, always. -/
def gamesOf (data : Json) : List GameRecord :=
  (data.getArr "events").map gameRecordOf

/-- The competition rows one document contributes. -/
def competitionsOf (data : Json) : List CompetitionRecord :=
  (data.getArr "events").flatMap (fun e =>
    (e.getArr "competitions").map (fun c => competitionRecordOf c (e.get "id")))

/-- The team stats rows one document contributes: one per competitor. -/
def teamGameStatsOf (data : Json) : List TeamGameStatRecord :=
  (data.getArr "events").flatMap (fun e =>
    (e.getArr "competitions").flatMap (fun c =>
      (c.getArr "competitors").map (fun comp =>
        teamStatRecordOf c comp (e.get "id") (teamKey comp))))

/-- The leader rows one competitor contributes. -/
def leadersOfCompetitor (competitor event_id team_id : Json) : List PlayerGameLeaderRecord :=
  (competitor.getArr "leaders").flatMap (fun cat =>
    (cat.getArr "leaders").map (fun leader => leaderRecordOf cat leader event_id team_id))

/-- The leader rows one document contributes. -/
def playerGameLeadersOf (data : Json) : List PlayerGameLeaderRecord :=
  (data.getArr "events").flatMap (fun e =>
    (e.getArr "competitions").flatMap (fun c =>
      (c.getArr "competitors").flatMap (fun comp =>
        leadersOfCompetitor comp (e.get "id") (teamKey comp))))

/-- The broadcast rows one document contributes. -/
def gameBroadcastsOf (data : Json) : List BroadcastRecord :=
  (data.getArr "events").flatMap (fun e =>
    (e.getArr "competitions").flatMap (fun c =>
      (c.getArr "broadcasts").map (fun b => broadcastRecordOf b c (e.get "id"))))

/-- The team record rows one document contributes. -/
def teamRecordsOf (data : Json) : List TeamRecordRow :=
  (data.getArr "events").flatMap (fun e =>
    (e.getArr "competitions").flatMap (fun c =>
      (c.getArr "competitors").flatMap (fun comp =>
        (comp.getArr "records").map (fun r => teamRecordRowOf r (e.get "id") (teamKey comp)))))

/-- Append rows to the six fact tables of a state at once, leaving every
lookup table and every dedup set untouched. -/
def factPut (s : ProcessorState) (g : List GameRecord) (c : List CompetitionRecord)
    (st : List TeamGameStatRecord) (pl : List PlayerGameLeaderRecord)
    (br : List BroadcastRecord) (tr : List TeamRecordRow) : ProcessorState :=
  { s with
    games := s.games ++ g
    competitions := s.competitions ++ c
    team_game_stats := s.team_game_stats ++ st
    player_game_leaders := s.player_game_leaders ++ pl
    game_broadcasts := s.game_broadcasts ++ br
    team_records := s.team_records ++ tr }

/-- The six lookup invariants of the processor state: each lookup table
holds pairwise-distinct natural keys, and each dedup set holds exactly
the keys present in its table. -/
def LookupInvariant (s : ProcessorState) : Prop :=
  ((s.leagues.map LeagueRecord.league_id).Nodup ∧
    ∀ k, k ∈ s.league_ids ↔ k ∈ s.leagues.map LeagueRecord.league_id) ∧
  ((s.teams.map TeamRecord.team_id).Nodup ∧
    ∀ k, k ∈ s.team_ids ↔ k ∈ s.teams.map TeamRecord.team_id) ∧
  ((s.venues.map VenueRecord.venue_id).Nodup ∧
    ∀ k, k ∈ s.venue_ids ↔ k ∈ s.venues.map VenueRecord.venue_id) ∧
  ((s.players.map PlayerRecord.player_id).Nodup ∧
    ∀ k, k ∈ s.player_ids ↔ k ∈ s.players.map PlayerRecord.player_id) ∧
  ((s.positions.map PositionRecord.position_abbreviation).Nodup ∧
    ∀ k, k ∈ s.position_names ↔ k ∈ s.positions.map PositionRecord.position_abbreviation) ∧
  ((s.game_status_types.map StatusTypeRecord.status_type_id).Nodup ∧
    ∀ k, k ∈ s.status_type_ids ↔ k ∈ s.game_status_types.map StatusTypeRecord.status_type_id)


/-- Every natural key recorded anywhere in the lookup state is truthy:
entities with empty or absent identifiers are never recorded, neither as
a table row nor in a dedup set. -/
def TruthyKeys (s : ProcessorState) : Prop :=
  (∀ r ∈ s.leagues, (r.league_id).isTruthy = true) ∧
  (∀ r ∈ s.teams, (r.team_id).isTruthy = true) ∧
  (∀ r ∈ s.venues, (r.venue_id).isTruthy = true) ∧
  (∀ r ∈ s.players, (r.player_id).isTruthy = true) ∧
  (∀ r ∈ s.positions, (r.position_abbreviation).isTruthy = true) ∧
  (∀ r ∈ s.game_status_types, (r.status_type_id).isTruthy = true) ∧
  (∀ k ∈ s.league_ids, k.isTruthy = true) ∧
  (∀ k ∈ s.team_ids, k.isTruthy = true) ∧
  (∀ k ∈ s.venue_ids, k.isTruthy = true) ∧
  (∀ k ∈ s.player_ids, k.isTruthy = true) ∧
  (∀ k ∈ s.position_names, k.isTruthy = true) ∧
  (∀ k ∈ s.status_type_ids, k.isTruthy = true)

/-- A synthetic single-document scenario: one league, one event with one
competition, two competitors with distinct teams and one leader entry
each, one venue, and no broadcasts array. -/
def synthDoc : Json :=
  Json.obj
    [("leagues", Json.arr [Json.obj [("id", Json.str "l1"), ("name", Json.str "NFL")]]),
     ("events", Json.arr
       [Json.obj
         [("id", Json.str "e1"),
          ("week", Json.obj [("number", Json.num 1)]),
          ("competitions", Json.arr
            [Json.obj
              [("id", Json.str "c1"),
               ("venue", Json.obj [("id", Json.str "v1"), ("fullName", Json.str "Stadium")]),
               ("status", Json.obj [("type", Json.obj [("id", Json.str "s1")])]),
               ("competitors", Json.arr
                 [Json.obj
                   [("team", Json.obj [("id", Json.str "t1")]),
                    ("homeAway", Json.str "home"),
                    ("leaders", Json.arr
                      [Json.obj
                        [("name", Json.str "passingYards"),
                         ("leaders", Json.arr
                           [Json.obj
                             [("athlete", Json.obj
                               [("id", Json.str "p1"),
                                ("position", Json.obj [("abbreviation", Json.str "QB")])])]])]])],
                  Json.obj
                   [("team", Json.obj [("id", Json.str "t2")]),
                    ("homeAway", Json.str "away"),
                    ("leaders", Json.arr
                      [Json.obj
                        [("name", Json.str "rushingYards"),
                         ("leaders", Json.arr
                           [Json.obj
                             [("athlete", Json.obj
                               [("id", Json.str "p2"),
                                ("position", Json.obj [("abbreviation", Json.str "RB")])])]])]])]])]])]])]

/-- A document whose single competitor has no team object at all, so the
team identifier is absent. -/
def noTeamIdDoc : Json :=
  Json.obj
    [("events", Json.arr
      [Json.obj
        [("competitions", Json.arr
          [Json.obj [("competitors", Json.arr [Json.obj []])]])]])]

/-- An event document whose single event has no week object. -/
def noWeekDoc : Json :=
  Json.obj [("events", Json.arr [Json.obj [("id", Json.str "e1")]])]

/-- The single event of noWeekDoc. -/
def noWeekEvent : Json :=
  Json.obj [("id", Json.str "e1")]

/-- A broadcast entry whose names array holds CBS and NFLN. -/
def cbsNflnBroadcast : Json :=
  Json.obj [("names", Json.arr [Json.str "CBS", Json.str "NFLN"])]

mutual

/-- The structural equality on JSON values is lawful. -/
theorem Json.beq_iff : ∀ a b : Json, Json.beq a b = true ↔ a = b
  | .null, .null => by simp [Json.beq]
  | .bool _, .bool _ => by simp [Json.beq]
  | .num _, .num _ => by simp [Json.beq]
  | .str _, .str _ => by simp [Json.beq]
  | .arr as, .arr bs => by
    simp only [Json.beq, Json.beqList_iff as bs, Json.arr.injEq]
  | .obj as, .obj bs => by
    simp only [Json.beq, Json.beqFields_iff as bs, Json.obj.injEq]
  | .null, .bool _ => by simp [Json.beq]
  | .null, .num _ => by simp [Json.beq]
  | .null, .str _ => by simp [Json.beq]
  | .null, .arr _ => by simp [Json.beq]
  | .null, .obj _ => by simp [Json.beq]
  | .bool _, .null => by simp [Json.beq]
  | .bool _, .num _ => by simp [Json.beq]
  | .bool _, .str _ => by simp [Json.beq]
  | .bool _, .arr _ => by simp [Json.beq]
  | .bool _, .obj _ => by simp [Json.beq]
  | .num _, .null => by simp [Json.beq]
  | .num _, .bool _ => by simp [Json.beq]
  | .num _, .str _ => by simp [Json.beq]
  | .num _, .arr _ => by simp [Json.beq]
  | .num _, .obj _ => by simp [Json.beq]
  | .str _, .null => by simp [Json.beq]
  | .str _, .bool _ => by simp [Json.beq]
  | .str _, .num _ => by simp [Json.beq]
  | .str _, .arr _ => by simp [Json.beq]
  | .str _, .obj _ => by simp [Json.beq]
  | .arr _, .null => by simp [Json.beq]
  | .arr _, .bool _ => by simp [Json.beq]
  | .arr _, .num _ => by simp [Json.beq]
  | .arr _, .str _ => by simp [Json.beq]
  | .arr _, .obj _ => by simp [Json.beq]
  | .obj _, .null => by simp [Json.beq]
  | .obj _, .bool _ => by simp [Json.beq]
  | .obj _, .num _ => by simp [Json.beq]
  | .obj _, .str _ => by simp [Json.beq]
  | .obj _, .arr _ => by simp [Json.beq]

/-- Lawfulness of the elementwise equality on JSON arrays. -/
theorem Json.beqList_iff : ∀ as bs : List Json, Json.beqList as bs = true ↔ as = bs
  | [], [] => by simp [Json.beqList]
  | a :: as, b :: bs => by
    simp [Json.beqList, Json.beq_iff a b, Json.beqList_iff as bs]
  | [], _ :: _ => by simp [Json.beqList]
  | _ :: _, [] => by simp [Json.beqList]

/-- Lawfulness of the fieldwise equality on JSON objects. -/
theorem Json.beqFields_iff : ∀ as bs : List (String × Json),
    Json.beqFields as bs = true ↔ as = bs
  | [], [] => by simp [Json.beqFields]
  | (k1, v1) :: as, (k2, v2) :: bs => by
    simp [Json.beqFields, Json.beq_iff v1 v2, Json.beqFields_iff as bs, and_assoc]
  | [], _ :: _ => by simp [Json.beqFields]
  | _ :: _, [] => by simp [Json.beqFields]

end

/-- The boolean membership test of the dedup sets agrees with list
membership. -/
theorem Json.memb_iff (k : Json) (ids : List Json) :
    Json.memb k ids = true ↔ k ∈ ids := by
  simp [Json.memb, List.any_eq_true, Json.beq_iff]

/-- Folding a loop body that touches no component measured by f leaves
that component unchanged. -/
theorem foldl_preserve {σ α β : Type _} (f : σ → β) (step : σ → α → σ)
    (h : ∀ s x, f (step s x) = f s) :
    ∀ (l : List α) (s : σ), f (l.foldl step s) = f s := by
  intro l
  induction l with
  | nil => intro s; rfl
  | cons x xs ih => intro s; rw [List.foldl_cons, ih, h]

/-- A nested loop is the flat loop over the flattened element list. -/
theorem foldl_flatMap_eq {σ α β : Type _} (g : α → List β) (step : σ → β → σ) :
    ∀ (l : List α) (s : σ),
      (l.flatMap g).foldl step s = l.foldl (fun acc x => (g x).foldl step acc) s := by
  intro l
  induction l with
  | nil => intro s; rfl
  | cons x xs ih =>
    intro s
    rw [List.flatMap_cons, List.foldl_append, List.foldl_cons]
    exact ih _

/-- Flattening a family of empty lists gives the empty list. -/
theorem flatMap_nil_fun {α β : Type _} (l : List α) :
    l.flatMap (fun _ => ([] : List β)) = [] := by
  induction l with
  | nil => rfl
  | cons x xs ih => rw [List.flatMap_cons, List.nil_append, ih]

/-- Flattening a family of singletons is mapping. -/
theorem flatMap_singleton_fun {α β : Type _} (l : List α) (f : α → β) :
    l.flatMap (fun x => [f x]) = l.map f := by
  induction l with
  | nil => rfl
  | cons x xs ih => rw [List.flatMap_cons, List.map_cons, List.singleton_append, ih]

/-- Two fact appends in a row are one fact append. -/
theorem factPut_factPut (s : ProcessorState)
    (g c st pl br tr g2 c2 st2 pl2 br2 tr2 : _) :
    factPut (factPut s g c st pl br tr) g2 c2 st2 pl2 br2 tr2 =
      factPut s (g ++ g2) (c ++ c2) (st ++ st2) (pl ++ pl2) (br ++ br2) (tr ++ tr2) := by
  simp [factPut, List.append_assoc]

/-- Appending nothing to the fact tables is the identity. -/
theorem factPut_nil (s : ProcessorState) : factPut s [] [] [] [] [] [] = s := by
  simp [factPut]

/-- Characterization of a loop whose body performs one fact append per
element: the loop appends the flattened row families. -/
theorem factPut_foldl {α : Type _} (step : ProcessorState → α → ProcessorState)
    (F1 : α → List GameRecord) (F2 : α → List CompetitionRecord)
    (F3 : α → List TeamGameStatRecord) (F4 : α → List PlayerGameLeaderRecord)
    (F5 : α → List BroadcastRecord) (F6 : α → List TeamRecordRow)
    (hstep : ∀ s x, step s x = factPut s (F1 x) (F2 x) (F3 x) (F4 x) (F5 x) (F6 x)) :
    ∀ (l : List α) (s : ProcessorState),
      l.foldl step s =
        factPut s (l.flatMap F1) (l.flatMap F2) (l.flatMap F3) (l.flatMap F4)
          (l.flatMap F5) (l.flatMap F6) := by
  intro l
  induction l with
  | nil => intro s; simp [factPut_nil]
  | cons x xs ih =>
    intro s
    rw [List.foldl_cons, hstep, ih, factPut_factPut]
    simp [List.flatMap_cons]

/-- Characterization of a lookup extraction loop through an abstract
two-field lens: folding the guarded-insert body equals appending the
rows dedupRows computes and replacing the dedup set by the one it
returns. -/
theorem dedup_foldl {σ ρ : Type _} (rowsF : σ → List ρ) (idsF : σ → List Json)
    (putF : σ → List ρ → List Json → σ) (rec : Json → ρ) (key : Json → Json)
    (step : σ → Json → σ)
    (hstep : ∀ s c, step s c =
      if (key c).isTruthy && !(Json.memb (key c) (idsF s)) then
        putF s (rowsF s ++ [rec c]) (key c :: idsF s)
      else s)
    (hrows : ∀ s l i, rowsF (putF s l i) = l)
    (hids : ∀ s l i, idsF (putF s l i) = i)
    (hpp : ∀ s l i l2 i2, putF (putF s l i) l2 i2 = putF s l2 i2)
    (hps : ∀ s, putF s (rowsF s) (idsF s) = s) :
    ∀ (cs : List Json) (s : σ),
      cs.foldl step s =
        putF s (rowsF s ++ (dedupRows rec key (idsF s) cs).1)
          (dedupRows rec key (idsF s) cs).2 := by
  intro cs
  induction cs with
  | nil => intro s; simp [dedupRows, hps]
  | cons c cs ih =>
    intro s
    rw [List.foldl_cons, hstep]
    by_cases h : ((key c).isTruthy && !(Json.memb (key c) (idsF s))) = true
    · rw [if_pos h, ih, hrows, hids, hpp]
      simp only [dedupRows, h, if_pos, List.append_assoc, List.singleton_append]
    · rw [if_neg h, ih]
      simp only [dedupRows, h, if_neg, Bool.false_eq_true, if_false]

/-- The dedup set only grows while candidates are processed. -/
theorem dedupRows_mem_ids {ρ : Type _} (rec : Json → ρ) (key : Json → Json) :
    ∀ (cs ids : List Json) (k : Json), k ∈ ids → k ∈ (dedupRows rec key ids cs).2 := by
  intro cs
  induction cs with
  | nil => intro ids k hk; simpa [dedupRows] using hk
  | cons c cs ih =>
    intro ids k hk
    by_cases h : ((key c).isTruthy && !(Json.memb (key c) ids)) = true
    · simp only [dedupRows, h, if_pos]
      exact ih _ _ (List.mem_cons_of_mem _ hk)
    · simp only [dedupRows, h, Bool.false_eq_true, if_false]
      exact ih _ _ hk

/-- After the loop, every truthy candidate key is in the dedup set. -/
theorem dedupRows_complete {ρ : Type _} (rec : Json → ρ) (key : Json → Json) :
    ∀ (cs ids : List Json) (c : Json), c ∈ cs → (key c).isTruthy = true →
      key c ∈ (dedupRows rec key ids cs).2 := by
  intro cs
  induction cs with
  | nil => intro ids c hc _; simp at hc
  | cons c0 cs ih =>
    intro ids c hc ht
    by_cases h : ((key c0).isTruthy && !(Json.memb (key c0) ids)) = true
    · simp only [dedupRows, h, if_pos]
      rcases List.mem_cons.mp hc with rfl | hc
      · exact dedupRows_mem_ids rec key cs _ _ (List.mem_cons_self _ _)
      · exact ih _ _ hc ht
    · simp only [dedupRows, h, Bool.false_eq_true, if_false]
      rcases List.mem_cons.mp hc with rfl | hc
      · have hm : key c ∈ ids := by
          have hmb : Json.memb (key c) ids = true := by simpa [ht] using h
          exact (Json.memb_iff _ _).mp hmb
        exact dedupRows_mem_ids rec key cs _ _ hm
      · exact ih _ _ hc ht

/-- If every truthy candidate key is already in the dedup set, the loop
records nothing and leaves the set unchanged. -/
theorem dedupRows_stable {ρ : Type _} (rec : Json → ρ) (key : Json → Json) :
    ∀ (cs ids : List Json), (∀ c ∈ cs, (key c).isTruthy = true → key c ∈ ids) →
      dedupRows rec key ids cs = ([], ids) := by
  intro cs
  induction cs with
  | nil => intro ids _; rfl
  | cons c cs ih =>
    intro ids h
    have hg : ((key c).isTruthy && !(Json.memb (key c) ids)) = false := by
      cases ht : (key c).isTruthy with
      | false => simp
      | true =>
        have hm : Json.memb (key c) ids = true :=
          (Json.memb_iff _ _).mpr (h c (List.mem_cons_self _ _) ht)
        simp [hm]
    simp only [dedupRows, hg, Bool.false_eq_true, if_false]
    exact ih ids (fun x hx => h x (List.mem_cons_of_mem _ hx))

/-- The loop preserves the lookup invariant: appending the computed rows
keeps the keys pairwise distinct, and the final dedup set holds exactly
the keys of the extended table. -/
theorem dedupRows_inv {ρ : Type _} (rec : Json → ρ) (key : Json → Json) (keyOf : ρ → Json)
    (hk : ∀ c, keyOf (rec c) = key c) :
    ∀ (cs ids ks : List Json), (∀ j, j ∈ ids ↔ j ∈ ks) → ks.Nodup →
      (ks ++ (dedupRows rec key ids cs).1.map keyOf).Nodup ∧
        (∀ j, j ∈ (dedupRows rec key ids cs).2 ↔
          j ∈ ks ++ (dedupRows rec key ids cs).1.map keyOf) := by
  intro cs
  induction cs with
  | nil =>
    intro ids ks hiff hnd
    simpa [dedupRows] using ⟨hnd, hiff⟩
  | cons c cs ih =>
    intro ids ks hiff hnd
    by_cases h : ((key c).isTruthy && !(Json.memb (key c) ids)) = true
    · have hnotin : key c ∉ ids := by
        rcases Bool.and_eq_true_iff.mp h with ⟨_, hnm⟩
        intro hmem
        have : Json.memb (key c) ids = true := (Json.memb_iff _ _).mpr hmem
        simp [this] at hnm
      have hks : key c ∉ ks := fun hx => hnotin ((hiff _).mpr hx)
      have hiff2 : ∀ j, j ∈ key c :: ids ↔ j ∈ ks ++ [key c] := by
        intro j
        simp only [List.mem_cons, List.mem_append, List.mem_singleton, hiff j]
        tauto
      have hnd2 : (ks ++ [key c]).Nodup := by
        simp [List.nodup_append, hnd, hks]
      have IH := ih (key c :: ids) (ks ++ [key c]) hiff2 hnd2
      simp only [dedupRows, h, if_pos, List.map_cons, hk] at *
      constructor
      · have := IH.1
        rwa [List.append_assoc, List.singleton_append] at this
      · intro j
        have := IH.2 j
        rwa [List.append_assoc, List.singleton_append] at this
    · simp only [dedupRows, h, Bool.false_eq_true, if_false]
      exact ih ids ks hiff hnd

/-- Every recorded lookup row carries a truthy natural key. -/
theorem dedupRows_truthy {ρ : Type _} (rec : Json → ρ) (key : Json → Json) (keyOf : ρ → Json)
    (hk : ∀ c, keyOf (rec c) = key c) :
    ∀ (cs ids : List Json) (r : ρ), r ∈ (dedupRows rec key ids cs).1 →
      (keyOf r).isTruthy = true := by
  intro cs
  induction cs with
  | nil => intro ids r hr; simp [dedupRows] at hr
  | cons c cs ih =>
    intro ids r hr
    by_cases h : ((key c).isTruthy && !(Json.memb (key c) ids)) = true
    · simp only [dedupRows, h, if_pos] at hr
      rcases List.mem_cons.mp hr with rfl | hr
      · rw [hk]
        exact (Bool.and_eq_true_iff.mp h).1
      · exact ih _ _ hr
    · simp only [dedupRows, h, Bool.false_eq_true, if_false] at hr
      exact ih _ _ hr

/-- Every identifier the loop adds to the dedup set is truthy. -/
theorem dedupRows_ids_truthy {ρ : Type _} (rec : Json → ρ) (key : Json → Json) :
    ∀ (cs ids : List Json) (j : Json), j ∈ (dedupRows rec key ids cs).2 →
      j ∈ ids ∨ j.isTruthy = true := by
  intro cs
  induction cs with
  | nil => intro ids j hj; simp [dedupRows] at hj; exact Or.inl hj
  | cons c cs ih =>
    intro ids j hj
    by_cases h : ((key c).isTruthy && !(Json.memb (key c) ids)) = true
    · simp only [dedupRows, h, if_pos] at hj
      rcases ih _ _ hj with hin | ht
      · rcases List.mem_cons.mp hin with rfl | hin
        · exact Or.inr (Bool.and_eq_true_iff.mp h).1
        · exact Or.inl hin
      · exact Or.inr ht
    · simp only [dedupRows, h, Bool.false_eq_true, if_false] at hj
      exact ih _ _ hj

/-- A truthy field value can only come from a truthy (nonempty) object:
every falsy JSON value resolves all lookups to null. -/
theorem Json.truthy_of_get (a : Json) (k : String)
    (h : (a.get k).isTruthy = true) : a.isTruthy = true := by
  cases a with
  | null => simp [Json.get, Json.getD, Json.isTruthy] at h
  | bool b => simp [Json.get, Json.getD, Json.isTruthy] at h
  | num n => simp [Json.get, Json.getD, Json.isTruthy] at h
  | str s => simp [Json.get, Json.getD, Json.isTruthy] at h
  | arr xs => simp [Json.get, Json.getD, Json.isTruthy] at h
  | obj fields =>
    cases fields with
    | nil => simp [Json.get, Json.getD, Json.isTruthy, List.find?] at h
    | cons f fs => simp [Json.isTruthy]

/-- The player id set only grows while athletes are processed. -/
theorem playersAux_mem_pids :
    ∀ (cs pids pnames : List Json) (j : Json), j ∈ pids →
      j ∈ (playersAux pids pnames cs).2.2.1 := by
  intro cs
  induction cs with
  | nil => intro pids pnames j hj; simpa [playersAux] using hj
  | cons a cs ih =>
    intro pids pnames j hj
    by_cases ha : a.isTruthy = true
    · by_cases hp : ((a.get "id").isTruthy && !(Json.memb (a.get "id") pids)) = true
      · by_cases hq : (((a.get "position").get "abbreviation").isTruthy &&
            !(Json.memb ((a.get "position").get "abbreviation") pnames)) = true
        · simp only [playersAux, ha, if_pos, hp, hq]
          exact ih _ _ _ (List.mem_cons_of_mem _ hj)
        · simp only [playersAux, ha, if_pos, hp, hq, Bool.false_eq_true, if_false]
          exact ih _ _ _ (List.mem_cons_of_mem _ hj)
      · simp only [playersAux, ha, if_pos, hp, Bool.false_eq_true, if_false]
        exact ih _ _ _ hj
    · simp only [playersAux, ha, Bool.false_eq_true, if_false]
      exact ih _ _ _ hj

/-- The position name set only grows while athletes are processed. -/
theorem playersAux_mem_pnames :
    ∀ (cs pids pnames : List Json) (j : Json), j ∈ pnames →
      j ∈ (playersAux pids pnames cs).2.2.2 := by
  intro cs
  induction cs with
  | nil => intro pids pnames j hj; simpa [playersAux] using hj
  | cons a cs ih =>
    intro pids pnames j hj
    by_cases ha : a.isTruthy = true
    · by_cases hp : ((a.get "id").isTruthy && !(Json.memb (a.get "id") pids)) = true
      · by_cases hq : (((a.get "position").get "abbreviation").isTruthy &&
            !(Json.memb ((a.get "position").get "abbreviation") pnames)) = true
        · simp only [playersAux, ha, if_pos, hp, hq]
          exact ih _ _ _ (List.mem_cons_of_mem _ hj)
        · simp only [playersAux, ha, if_pos, hp, hq, Bool.false_eq_true, if_false]
          exact ih _ _ _ hj
      · simp only [playersAux, ha, if_pos, hp, Bool.false_eq_true, if_false]
        exact ih _ _ _ hj
    · simp only [playersAux, ha, Bool.false_eq_true, if_false]
      exact ih _ _ _ hj

/-- After the athlete loop, every truthy athlete id is in the player id
set. -/
theorem playersAux_complete :
    ∀ (cs pids pnames : List Json) (a : Json), a ∈ cs →
      (a.get "id").isTruthy = true →
      a.get "id" ∈ (playersAux pids pnames cs).2.2.1 := by
  intro cs
  induction cs with
  | nil => intro pids pnames a ha _; simp at ha
  | cons a0 cs ih =>
    intro pids pnames a hmem ht
    by_cases ha : a0.isTruthy = true
    · by_cases hp : ((a0.get "id").isTruthy && !(Json.memb (a0.get "id") pids)) = true
      · by_cases hq : (((a0.get "position").get "abbreviation").isTruthy &&
            !(Json.memb ((a0.get "position").get "abbreviation") pnames)) = true
        · simp only [playersAux, ha, if_pos, hp, hq]
          rcases List.mem_cons.mp hmem with rfl | hmem
          · exact playersAux_mem_pids _ _ _ _ (List.mem_cons_self _ _)
          · exact ih _ _ _ hmem ht
        · simp only [playersAux, ha, if_pos, hp, hq, Bool.false_eq_true, if_false]
          rcases List.mem_cons.mp hmem with rfl | hmem
          · exact playersAux_mem_pids _ _ _ _ (List.mem_cons_self _ _)
          · exact ih _ _ _ hmem ht
      · simp only [playersAux, ha, if_pos, hp, Bool.false_eq_true, if_false]
        rcases List.mem_cons.mp hmem with rfl | hmem
        · have hin : a.get "id" ∈ pids := by
            have hmb : Json.memb (a.get "id") pids = true := by simpa [ht] using hp
            exact (Json.memb_iff _ _).mp hmb
          exact playersAux_mem_pids _ _ _ _ hin
        · exact ih _ _ _ hmem ht
    · simp only [playersAux, ha, Bool.false_eq_true, if_false]
      rcases List.mem_cons.mp hmem with rfl | hmem
      · exact absurd (Json.truthy_of_get _ _ ht) ha
      · exact ih _ _ _ hmem ht

/-- If every truthy athlete id is already known, the athlete loop adds
no player row, no position row, and leaves both sets unchanged. -/
theorem playersAux_stable :
    ∀ (cs pids pnames : List Json),
      (∀ a ∈ cs, (a.get "id").isTruthy = true → a.get "id" ∈ pids) →
      playersAux pids pnames cs = ([], [], pids, pnames) := by
  intro cs
  induction cs with
  | nil => intro pids pnames _; rfl
  | cons a cs ih =>
    intro pids pnames h
    have hrest : ∀ x ∈ cs, (x.get "id").isTruthy = true → x.get "id" ∈ pids :=
      fun x hx => h x (List.mem_cons_of_mem _ hx)
    by_cases ha : a.isTruthy = true
    · have hp : ((a.get "id").isTruthy && !(Json.memb (a.get "id") pids)) = false := by
        cases ht : (a.get "id").isTruthy with
        | false => simp
        | true =>
          have hmb : Json.memb (a.get "id") pids = true :=
            (Json.memb_iff _ _).mpr (h a (List.mem_cons_self _ _) ht)
          simp [hmb]
      simp only [playersAux, ha, if_pos, hp, Bool.false_eq_true, if_false]
      exact ih _ _ hrest
    · simp only [playersAux, ha, Bool.false_eq_true, if_false]
      exact ih _ _ hrest

/-- The athlete loop preserves the lookup invariant of both the players
table and the positions table. -/
theorem playersAux_inv :
    ∀ (cs pids pnames kps kns : List Json),
      (∀ j, j ∈ pids ↔ j ∈ kps) → kps.Nodup →
      (∀ j, j ∈ pnames ↔ j ∈ kns) → kns.Nodup →
      ((kps ++ (playersAux pids pnames cs).1.map PlayerRecord.player_id).Nodup ∧
        (∀ j, j ∈ (playersAux pids pnames cs).2.2.1 ↔
          j ∈ kps ++ (playersAux pids pnames cs).1.map PlayerRecord.player_id)) ∧
      ((kns ++ (playersAux pids pnames cs).2.1.map PositionRecord.position_abbreviation).Nodup ∧
        (∀ j, j ∈ (playersAux pids pnames cs).2.2.2 ↔
          j ∈ kns ++ (playersAux pids pnames cs).2.1.map PositionRecord.position_abbreviation)) := by
  intro cs
  induction cs with
  | nil =>
    intro pids pnames kps kns hpiff hpnd hniff hnnd
    simpa [playersAux] using ⟨⟨hpnd, hpiff⟩, hnnd, hniff⟩
  | cons a cs ih =>
    intro pids pnames kps kns hpiff hpnd hniff hnnd
    by_cases ha : a.isTruthy = true
    · by_cases hp : ((a.get "id").isTruthy && !(Json.memb (a.get "id") pids)) = true
      · have hpnotin : a.get "id" ∉ pids := by
          rcases Bool.and_eq_true_iff.mp hp with ⟨_, hnm⟩
          intro hmem
          have : Json.memb (a.get "id") pids = true := (Json.memb_iff _ _).mpr hmem
          simp [this] at hnm
        have hpks : a.get "id" ∉ kps := fun hx => hpnotin ((hpiff _).mpr hx)
        have hpiff2 : ∀ j, j ∈ a.get "id" :: pids ↔ j ∈ kps ++ [a.get "id"] := by
          intro j
          simp only [List.mem_cons, List.mem_append, List.mem_singleton, hpiff j]
          tauto
        have hpnd2 : (kps ++ [a.get "id"]).Nodup := by
          simp [List.nodup_append, hpnd, hpks]
        by_cases hq : (((a.get "position").get "abbreviation").isTruthy &&
            !(Json.memb ((a.get "position").get "abbreviation") pnames)) = true
        · have hnnotin : (a.get "position").get "abbreviation" ∉ pnames := by
            rcases Bool.and_eq_true_iff.mp hq with ⟨_, hnm⟩
            intro hmem
            have : Json.memb ((a.get "position").get "abbreviation") pnames = true :=
              (Json.memb_iff _ _).mpr hmem
            simp [this] at hnm
          have hnks : (a.get "position").get "abbreviation" ∉ kns :=
            fun hx => hnnotin ((hniff _).mpr hx)
          have hniff2 : ∀ j, j ∈ (a.get "position").get "abbreviation" :: pnames ↔
              j ∈ kns ++ [(a.get "position").get "abbreviation"] := by
            intro j
            simp only [List.mem_cons, List.mem_append, List.mem_singleton, hniff j]
            tauto
          have hnnd2 : (kns ++ [(a.get "position").get "abbreviation"]).Nodup := by
            simp [List.nodup_append, hnnd, hnks]
          have IH := ih (a.get "id" :: pids) ((a.get "position").get "abbreviation" :: pnames)
            (kps ++ [a.get "id"]) (kns ++ [(a.get "position").get "abbreviation"])
            hpiff2 hpnd2 hniff2 hnnd2
          simp only [playersAux, ha, if_pos, hp, hq, List.map_cons, playerRecordOf,
            positionRecordOf] at *
          refine ⟨⟨?_, ?_⟩, ⟨?_, ?_⟩⟩
          · have := IH.1.1
            rwa [List.append_assoc, List.singleton_append] at this
          · intro j
            have := IH.1.2 j
            rwa [List.append_assoc, List.singleton_append] at this
          · have := IH.2.1
            rwa [List.append_assoc, List.singleton_append] at this
          · intro j
            have := IH.2.2 j
            rwa [List.append_assoc, List.singleton_append] at this
        · have IH := ih (a.get "id" :: pids) pnames (kps ++ [a.get "id"]) kns
            hpiff2 hpnd2 hniff hnnd
          simp only [playersAux, ha, if_pos, hp, hq, Bool.false_eq_true, if_false,
            List.map_cons, playerRecordOf] at *
          refine ⟨⟨?_, ?_⟩, IH.2⟩
          · have := IH.1.1
            rwa [List.append_assoc, List.singleton_append] at this
          · intro j
            have := IH.1.2 j
            rwa [List.append_assoc, List.singleton_append] at this
      · simp only [playersAux, ha, if_pos, hp, Bool.false_eq_true, if_false]
        exact ih pids pnames kps kns hpiff hpnd hniff hnnd
    · simp only [playersAux, ha, Bool.false_eq_true, if_false]
      exact ih pids pnames kps kns hpiff hpnd hniff hnnd

/-- Every player row and every position row the athlete loop records
carries a truthy natural key. -/
theorem playersAux_truthy :
    ∀ (cs pids pnames : List Json),
      (∀ r ∈ (playersAux pids pnames cs).1, (r.player_id).isTruthy = true) ∧
      (∀ p ∈ (playersAux pids pnames cs).2.1, (p.position_abbreviation).isTruthy = true) := by
  intro cs
  induction cs with
  | nil => intro pids pnames; simp [playersAux]
  | cons a cs ih =>
    intro pids pnames
    by_cases ha : a.isTruthy = true
    · by_cases hp : ((a.get "id").isTruthy && !(Json.memb (a.get "id") pids)) = true
      · by_cases hq : (((a.get "position").get "abbreviation").isTruthy &&
            !(Json.memb ((a.get "position").get "abbreviation") pnames)) = true
        · simp only [playersAux, ha, if_pos, hp, hq]
          constructor
          · intro r hr
            rcases List.mem_cons.mp hr with rfl | hr
            · simpa [playerRecordOf] using (Bool.and_eq_true_iff.mp hp).1
            · exact (ih _ _).1 r hr
          · intro p hpmem
            rcases List.mem_cons.mp hpmem with rfl | hpmem
            · simpa [positionRecordOf] using (Bool.and_eq_true_iff.mp hq).1
            · exact (ih _ _).2 p hpmem
        · simp only [playersAux, ha, if_pos, hp, hq, Bool.false_eq_true, if_false]
          constructor
          · intro r hr
            rcases List.mem_cons.mp hr with rfl | hr
            · simpa [playerRecordOf] using (Bool.and_eq_true_iff.mp hp).1
            · exact (ih _ _).1 r hr
          · exact (ih _ _).2
      · simp only [playersAux, ha, if_pos, hp, Bool.false_eq_true, if_false]
        exact ih _ _
    · simp only [playersAux, ha, Bool.false_eq_true, if_false]
      exact ih _ _

/-- Every identifier the athlete loop adds to either dedup set is
truthy. -/
theorem playersAux_sets_truthy :
    ∀ (cs pids pnames : List Json),
      (∀ j ∈ (playersAux pids pnames cs).2.2.1, j ∈ pids ∨ j.isTruthy = true) ∧
      (∀ j ∈ (playersAux pids pnames cs).2.2.2, j ∈ pnames ∨ j.isTruthy = true) := by
  intro cs
  induction cs with
  | nil =>
    intro pids pnames
    exact ⟨fun j hj => Or.inl (by simpa [playersAux] using hj),
      fun j hj => Or.inl (by simpa [playersAux] using hj)⟩
  | cons a cs ih =>
    intro pids pnames
    by_cases ha : a.isTruthy = true
    · by_cases hp : ((a.get "id").isTruthy && !(Json.memb (a.get "id") pids)) = true
      · by_cases hq : (((a.get "position").get "abbreviation").isTruthy &&
            !(Json.memb ((a.get "position").get "abbreviation") pnames)) = true
        · simp only [playersAux, ha, if_pos, hp, hq]
          constructor
          · intro j hj
            rcases (ih _ _).1 j hj with hin | ht
            · rcases List.mem_cons.mp hin with rfl | hin
              · exact Or.inr (Bool.and_eq_true_iff.mp hp).1
              · exact Or.inl hin
            · exact Or.inr ht
          · intro j hj
            rcases (ih _ _).2 j hj with hin | ht
            · rcases List.mem_cons.mp hin with rfl | hin
              · exact Or.inr (Bool.and_eq_true_iff.mp hq).1
              · exact Or.inl hin
            · exact Or.inr ht
        · simp only [playersAux, ha, if_pos, hp, hq, Bool.false_eq_true, if_false]
          constructor
          · intro j hj
            rcases (ih _ _).1 j hj with hin | ht
            · rcases List.mem_cons.mp hin with rfl | hin
              · exact Or.inr (Bool.and_eq_true_iff.mp hp).1
              · exact Or.inl hin
            · exact Or.inr ht
          · exact (ih _ _).2
      · simp only [playersAux, ha, if_pos, hp, Bool.false_eq_true, if_false]
        exact ih _ _
    · simp only [playersAux, ha, Bool.false_eq_true, if_false]
      exact ih _ _

/-- Loops with pointwise equal bodies compute the same fold. -/
theorem foldl_congr_fun {σ α : Type _} (f g : σ → α → σ) (h : ∀ s x, f s x = g s x) :
    ∀ (l : List α) (s : σ), l.foldl f s = l.foldl g s := by
  have hfg : f = g := funext fun s => funext fun x => h s x
  intro l s
  rw [hfg]

/-- Characterization of extract_leagues: it appends the deduplicated
league rows and updates the league id set, touching nothing else. -/
theorem extract_leagues_eq (s : ProcessorState) (data : Json) :
    extract_leagues s data =
      { s with
        leagues := s.leagues ++
          (dedupRows leagueRecordOf (fun l => l.get "id") s.league_ids (leagueCandidates data)).1
        league_ids :=
          (dedupRows leagueRecordOf (fun l => l.get "id") s.league_ids (leagueCandidates data)).2 } :=
  dedup_foldl ProcessorState.leagues ProcessorState.league_ids
    (fun s l i => { s with leagues := l, league_ids := i })
    leagueRecordOf (fun l => l.get "id") leagueStep
    (fun _ _ => rfl) (fun _ _ _ => rfl) (fun _ _ _ => rfl)
    (fun _ _ _ _ _ => rfl) (fun _ => rfl)
    (leagueCandidates data) s

/-- The team extraction loop flattened over its candidates. -/
theorem extract_teams_flat (s : ProcessorState) (data : Json) :
    extract_teams_from_events s data = (teamCandidates data).foldl teamStep s := by
  unfold extract_teams_from_events teamCandidates docCompetitions
  rw [foldl_flatMap_eq, foldl_flatMap_eq]
  rfl

/-- Characterization of extract_teams_from_events. -/
theorem extract_teams_eq (s : ProcessorState) (data : Json) :
    extract_teams_from_events s data =
      { s with
        teams := s.teams ++
          (dedupRows (fun c => teamRecordOf (c.get "team")) teamKey s.team_ids
            (teamCandidates data)).1
        team_ids :=
          (dedupRows (fun c => teamRecordOf (c.get "team")) teamKey s.team_ids
            (teamCandidates data)).2 } := by
  rw [extract_teams_flat]
  exact dedup_foldl ProcessorState.teams ProcessorState.team_ids
    (fun s l i => { s with teams := l, team_ids := i })
    (fun c => teamRecordOf (c.get "team")) teamKey teamStep
    (fun _ _ => rfl) (fun _ _ _ => rfl) (fun _ _ _ => rfl)
    (fun _ _ _ _ _ => rfl) (fun _ => rfl)
    (teamCandidates data) s

/-- The venue extraction loop flattened over its candidates. -/
theorem extract_venues_flat (s : ProcessorState) (data : Json) :
    extract_venues_from_events s data = (docCompetitions data).foldl venueStep s := by
  unfold extract_venues_from_events docCompetitions
  rw [foldl_flatMap_eq]
  rfl

/-- Characterization of extract_venues_from_events. -/
theorem extract_venues_eq (s : ProcessorState) (data : Json) :
    extract_venues_from_events s data =
      { s with
        venues := s.venues ++
          (dedupRows (fun c => venueRecordOf (c.get "venue")) venueKey s.venue_ids
            (docCompetitions data)).1
        venue_ids :=
          (dedupRows (fun c => venueRecordOf (c.get "venue")) venueKey s.venue_ids
            (docCompetitions data)).2 } := by
  rw [extract_venues_flat]
  exact dedup_foldl ProcessorState.venues ProcessorState.venue_ids
    (fun s l i => { s with venues := l, venue_ids := i })
    (fun c => venueRecordOf (c.get "venue")) venueKey venueStep
    (fun _ _ => rfl) (fun _ _ _ => rfl) (fun _ _ _ => rfl)
    (fun _ _ _ _ _ => rfl) (fun _ => rfl)
    (docCompetitions data) s

/-- The status type extraction loop flattened over its candidates. -/
theorem extract_status_flat (s : ProcessorState) (data : Json) :
    extract_game_status_types s data = (docCompetitions data).foldl statusStep s := by
  unfold extract_game_status_types docCompetitions
  rw [foldl_flatMap_eq]
  rfl

/-- Characterization of extract_game_status_types. -/
theorem extract_status_eq (s : ProcessorState) (data : Json) :
    extract_game_status_types s data =
      { s with
        game_status_types := s.game_status_types ++
          (dedupRows (fun c => statusRecordOf ((c.get "status").get "type")) statusKey
            s.status_type_ids (docCompetitions data)).1
        status_type_ids :=
          (dedupRows (fun c => statusRecordOf ((c.get "status").get "type")) statusKey
            s.status_type_ids (docCompetitions data)).2 } := by
  rw [extract_status_flat]
  exact dedup_foldl ProcessorState.game_status_types ProcessorState.status_type_ids
    (fun s l i => { s with game_status_types := l, status_type_ids := i })
    (fun c => statusRecordOf ((c.get "status").get "type")) statusKey statusStep
    (fun _ _ => rfl) (fun _ _ _ => rfl) (fun _ _ _ => rfl)
    (fun _ _ _ _ _ => rfl) (fun _ => rfl)
    (docCompetitions data) s

/-- The athlete sources of one competition flattened into one list. -/
theorem playersOfCompetition_flat (s : ProcessorState) (c : Json) :
    playersOfCompetition s c = (competitionAthletes c).foldl process_athlete s := by
  unfold playersOfCompetition competitionAthletes
  rw [List.foldl_append, List.foldl_map, List.foldl_map,
    foldl_flatMap_eq, foldl_flatMap_eq, foldl_flatMap_eq]
  rfl

/-- The athlete extraction flattened over all athlete candidates of the
document. -/
theorem extract_players_flat (s : ProcessorState) (data : Json) :
    extract_players_and_positions s data = (athleteCandidates data).foldl process_athlete s := by
  unfold athleteCandidates docCompetitions
  rw [foldl_flatMap_eq, foldl_flatMap_eq]
  unfold extract_players_and_positions
  refine foldl_congr_fun _ _ (fun s e => ?_) _ _
  unfold playersOfEvent
  refine foldl_congr_fun _ _ (fun s c => ?_) _ _
  exact playersOfCompetition_flat s c

/-- Folding the athlete processing over a candidate list appends the
rows playersAux computes and installs the sets it returns. -/
theorem process_athlete_foldl :
    ∀ (cs : List Json) (s : ProcessorState), cs.foldl process_athlete s =
      { s with
        players := s.players ++ (playersAux s.player_ids s.position_names cs).1
        positions := s.positions ++ (playersAux s.player_ids s.position_names cs).2.1
        player_ids := (playersAux s.player_ids s.position_names cs).2.2.1
        position_names := (playersAux s.player_ids s.position_names cs).2.2.2 } := by
  intro cs
  induction cs with
  | nil => intro s; simp [playersAux]
  | cons a cs ih =>
    intro s
    rw [List.foldl_cons]
    by_cases ha : a.isTruthy = true
    · by_cases hp : ((a.get "id").isTruthy && !(Json.memb (a.get "id") s.player_ids)) = true
      · by_cases hq : (((a.get "position").get "abbreviation").isTruthy &&
            !(Json.memb ((a.get "position").get "abbreviation") s.position_names)) = true
        · have hpa : process_athlete s a =
              { s with
                players := s.players ++ [playerRecordOf a]
                positions := s.positions ++
                  [positionRecordOf ((a.get "position").get "abbreviation")]
                player_ids := a.get "id" :: s.player_ids
                position_names := (a.get "position").get "abbreviation" :: s.position_names } := by
            simp only [process_athlete, ha, Bool.not_true, Bool.false_eq_true, if_false,
              hp, if_pos, hq]
          rw [hpa, ih]
          simp only [playersAux, ha, if_pos, hp, hq]
          simp [List.append_assoc]
        · have hpa : process_athlete s a =
              { s with
                players := s.players ++ [playerRecordOf a]
                player_ids := a.get "id" :: s.player_ids } := by
            simp only [process_athlete, ha, Bool.not_true, Bool.false_eq_true, if_false,
              hp, if_pos, hq]
          rw [hpa, ih]
          simp only [playersAux, ha, if_pos, hp, hq, Bool.false_eq_true, if_false]
          simp [List.append_assoc]
      · have hpa : process_athlete s a = s := by
          simp only [process_athlete, ha, Bool.not_true, Bool.false_eq_true, if_false,
            hp, if_false]
        rw [hpa, ih]
        simp only [playersAux, ha, if_pos, hp, Bool.false_eq_true, if_false]
    · have hpa : process_athlete s a = s := by
        have hfa : a.isTruthy = false := Bool.eq_false_iff.mpr ha
        simp [process_athlete, hfa]
      rw [hpa, ih]
      simp only [playersAux, ha, Bool.false_eq_true, if_false]

/-- Characterization of extract_players_and_positions. -/
theorem extract_players_eq (s : ProcessorState) (data : Json) :
    extract_players_and_positions s data =
      { s with
        players := s.players ++
          (playersAux s.player_ids s.position_names (athleteCandidates data)).1
        positions := s.positions ++
          (playersAux s.player_ids s.position_names (athleteCandidates data)).2.1
        player_ids := (playersAux s.player_ids s.position_names (athleteCandidates data)).2.2.1
        position_names :=
          (playersAux s.player_ids s.position_names (athleteCandidates data)).2.2.2 } := by
  rw [extract_players_flat]
  exact process_athlete_foldl _ s

/-- One leader entry is one fact append. -/
theorem playerLeaderEntryStep_put (eid tid cat : Json) (s : ProcessorState) (l : Json) :
    playerLeaderEntryStep eid tid cat s l =
      factPut s [] [] [] [leaderRecordOf cat l eid tid] [] [] := by
  simp [playerLeaderEntryStep, factPut]

/-- One leader category appends its mapped leader rows. -/
theorem playerLeaderCategoryStep_put (eid tid : Json) (s : ProcessorState) (cat : Json) :
    playerLeaderCategoryStep eid tid s cat =
      factPut s [] [] []
        ((cat.getArr "leaders").map (fun l => leaderRecordOf cat l eid tid)) [] [] := by
  unfold playerLeaderCategoryStep
  rw [factPut_foldl (playerLeaderEntryStep eid tid cat)
    (fun _ => []) (fun _ => []) (fun _ => [])
    (fun l => [leaderRecordOf cat l eid tid]) (fun _ => []) (fun _ => [])
    (playerLeaderEntryStep_put eid tid cat)]
  simp [flatMap_nil_fun, flatMap_singleton_fun]

/-- The leader extraction of one competitor appends its leader rows. -/
theorem extract_player_leaders_put (s : ProcessorState) (comp eid tid : Json) :
    extract_player_leaders s comp eid tid =
      factPut s [] [] [] (leadersOfCompetitor comp eid tid) [] [] := by
  unfold extract_player_leaders leadersOfCompetitor
  rw [factPut_foldl (playerLeaderCategoryStep eid tid)
    (fun _ => []) (fun _ => []) (fun _ => [])
    (fun cat => (cat.getArr "leaders").map (fun l => leaderRecordOf cat l eid tid))
    (fun _ => []) (fun _ => [])
    (playerLeaderCategoryStep_put eid tid)]
  simp [flatMap_nil_fun]

/-- One record entry is one fact append. -/
theorem teamRecordStep_put (eid tid : Json) (s : ProcessorState) (r : Json) :
    teamRecordStep eid tid s r =
      factPut s [] [] [] [] [] [teamRecordRowOf r eid tid] := by
  simp [teamRecordStep, factPut]

/-- One competitor of the stats extraction appends its stats row, its
record rows and its leader rows. -/
theorem statCompetitorStep_put (c eid : Json) (s : ProcessorState) (comp : Json) :
    statCompetitorStep c eid s comp =
      factPut s [] [] [teamStatRecordOf c comp eid (teamKey comp)]
        (leadersOfCompetitor comp eid (teamKey comp)) []
        ((comp.getArr "records").map (fun r => teamRecordRowOf r eid (teamKey comp))) := by
  unfold teamKey
  simp only [statCompetitorStep]
  have h1 : ({ s with
      team_game_stats := s.team_game_stats ++
        [teamStatRecordOf c comp eid ((comp.get "team").get "id")] } : ProcessorState) =
      factPut s [] [] [teamStatRecordOf c comp eid ((comp.get "team").get "id")] [] [] [] := by
    simp [factPut]
  have h2 : ∀ t : ProcessorState,
      (comp.getArr "records").foldl (teamRecordStep eid ((comp.get "team").get "id")) t =
        factPut t [] [] [] [] []
          ((comp.getArr "records").map
            (fun r => teamRecordRowOf r eid ((comp.get "team").get "id"))) := by
    intro t
    rw [factPut_foldl (teamRecordStep eid ((comp.get "team").get "id"))
      (fun _ => []) (fun _ => []) (fun _ => []) (fun _ => []) (fun _ => [])
      (fun r => [teamRecordRowOf r eid ((comp.get "team").get "id")])
      (teamRecordStep_put eid ((comp.get "team").get "id"))]
    simp [flatMap_nil_fun, flatMap_singleton_fun]
  rw [h1, h2, extract_player_leaders_put, factPut_factPut, factPut_factPut]
  simp

/-- The stats extraction of one competition appends one stats row per
competitor together with the record and leader rows. -/
theorem extract_team_game_stats_put (s : ProcessorState) (c eid : Json) :
    extract_team_game_stats s c eid =
      factPut s [] []
        ((c.getArr "competitors").map (fun comp => teamStatRecordOf c comp eid (teamKey comp)))
        ((c.getArr "competitors").flatMap (fun comp => leadersOfCompetitor comp eid (teamKey comp)))
        []
        ((c.getArr "competitors").flatMap (fun comp =>
          (comp.getArr "records").map (fun r => teamRecordRowOf r eid (teamKey comp)))) := by
  unfold extract_team_game_stats
  rw [factPut_foldl (statCompetitorStep c eid)
    (fun _ => []) (fun _ => [])
    (fun comp => [teamStatRecordOf c comp eid (teamKey comp)])
    (fun comp => leadersOfCompetitor comp eid (teamKey comp))
    (fun _ => [])
    (fun comp => (comp.getArr "records").map (fun r => teamRecordRowOf r eid (teamKey comp)))
    (statCompetitorStep_put c eid)]
  simp [flatMap_nil_fun, flatMap_singleton_fun]

/-- One broadcast entry is one fact append. -/
theorem broadcastStep_put (c eid : Json) (s : ProcessorState) (b : Json) :
    broadcastStep c eid s b = factPut s [] [] [] [] [broadcastRecordOf b c eid] [] := by
  simp [broadcastStep, factPut]

/-- The broadcast extraction of one competition appends its mapped
broadcast rows. -/
theorem extract_game_broadcasts_put (s : ProcessorState) (c eid : Json) :
    extract_game_broadcasts s c eid =
      factPut s [] [] [] [] ((c.getArr "broadcasts").map (fun b => broadcastRecordOf b c eid)) [] := by
  unfold extract_game_broadcasts
  rw [factPut_foldl (broadcastStep c eid)
    (fun _ => []) (fun _ => []) (fun _ => []) (fun _ => [])
    (fun b => [broadcastRecordOf b c eid]) (fun _ => [])
    (broadcastStep_put c eid)]
  simp [flatMap_nil_fun, flatMap_singleton_fun]

/-- One competition of the games extraction appends its competition row
and the rows of its nested extractions. -/
theorem gameCompetitionStep_put (eid : Json) (s : ProcessorState) (c : Json) :
    gameCompetitionStep eid s c =
      factPut s [] [competitionRecordOf c eid]
        ((c.getArr "competitors").map (fun comp => teamStatRecordOf c comp eid (teamKey comp)))
        ((c.getArr "competitors").flatMap (fun comp => leadersOfCompetitor comp eid (teamKey comp)))
        ((c.getArr "broadcasts").map (fun b => broadcastRecordOf b c eid))
        ((c.getArr "competitors").flatMap (fun comp =>
          (comp.getArr "records").map (fun r => teamRecordRowOf r eid (teamKey comp)))) := by
  simp only [gameCompetitionStep]
  have h1 : ({ s with
      competitions := s.competitions ++ [competitionRecordOf c eid] } : ProcessorState) =
      factPut s [] [competitionRecordOf c eid] [] [] [] [] := by
    simp [factPut]
  rw [h1, extract_team_game_stats_put, extract_game_broadcasts_put,
    factPut_factPut, factPut_factPut]
  simp

/-- One event of the games extraction appends its game row and the rows
of all its competitions. -/
theorem gameEventStep_put (s : ProcessorState) (e : Json) :
    gameEventStep s e =
      factPut s [gameRecordOf e]
        ((e.getArr "competitions").map (fun c => competitionRecordOf c (e.get "id")))
        ((e.getArr "competitions").flatMap (fun c =>
          (c.getArr "competitors").map (fun comp =>
            teamStatRecordOf c comp (e.get "id") (teamKey comp))))
        ((e.getArr "competitions").flatMap (fun c =>
          (c.getArr "competitors").flatMap (fun comp =>
            leadersOfCompetitor comp (e.get "id") (teamKey comp))))
        ((e.getArr "competitions").flatMap (fun c =>
          (c.getArr "broadcasts").map (fun b => broadcastRecordOf b c (e.get "id"))))
        ((e.getArr "competitions").flatMap (fun c =>
          (c.getArr "competitors").flatMap (fun comp =>
            (comp.getArr "records").map (fun r =>
              teamRecordRowOf r (e.get "id") (teamKey comp))))) := by
  simp only [gameEventStep]
  have h1 : ({ s with games := s.games ++ [gameRecordOf e] } : ProcessorState) =
      factPut s [gameRecordOf e] [] [] [] [] [] := by
    simp [factPut]
  rw [h1, factPut_foldl (gameCompetitionStep (e.get "id"))
    (fun _ => [])
    (fun c => [competitionRecordOf c (e.get "id")])
    (fun c => (c.getArr "competitors").map (fun comp =>
      teamStatRecordOf c comp (e.get "id") (teamKey comp)))
    (fun c => (c.getArr "competitors").flatMap (fun comp =>
      leadersOfCompetitor comp (e.get "id") (teamKey comp)))
    (fun c => (c.getArr "broadcasts").map (fun b => broadcastRecordOf b c (e.get "id")))
    (fun c => (c.getArr "competitors").flatMap (fun comp =>
      (comp.getArr "records").map (fun r => teamRecordRowOf r (e.get "id") (teamKey comp))))
    (gameCompetitionStep_put (e.get "id")), factPut_factPut]
  simp [flatMap_nil_fun, flatMap_singleton_fun]

/-- Characterization of extract_games_and_competitions: it appends the
per-document fact rows of all six fact tables and touches no lookup
table and no dedup set. -/
theorem extract_games_eq (s : ProcessorState) (data : Json) :
    extract_games_and_competitions s data =
      factPut s (gamesOf data) (competitionsOf data) (teamGameStatsOf data)
        (playerGameLeadersOf data) (gameBroadcastsOf data) (teamRecordsOf data) := by
  unfold extract_games_and_competitions gamesOf competitionsOf teamGameStatsOf
    playerGameLeadersOf gameBroadcastsOf teamRecordsOf
  rw [factPut_foldl gameEventStep
    (fun e => [gameRecordOf e])
    (fun e => (e.getArr "competitions").map (fun c => competitionRecordOf c (e.get "id")))
    (fun e => (e.getArr "competitions").flatMap (fun c =>
      (c.getArr "competitors").map (fun comp =>
        teamStatRecordOf c comp (e.get "id") (teamKey comp))))
    (fun e => (e.getArr "competitions").flatMap (fun c =>
      (c.getArr "competitors").flatMap (fun comp =>
        leadersOfCompetitor comp (e.get "id") (teamKey comp))))
    (fun e => (e.getArr "competitions").flatMap (fun c =>
      (c.getArr "broadcasts").map (fun b => broadcastRecordOf b c (e.get "id"))))
    (fun e => (e.getArr "competitions").flatMap (fun c =>
      (c.getArr "competitors").flatMap (fun comp =>
        (comp.getArr "records").map (fun r =>
          teamRecordRowOf r (e.get "id") (teamKey comp)))))
    gameEventStep_put]
  simp [flatMap_singleton_fun]

/-- Full characterization of one document pass: the lookup tables gain
their deduplicated rows, the dedup sets are updated accordingly, and
the six fact tables gain the per-document fact rows unconditionally. -/
theorem processDocument_eq (s : ProcessorState) (d : Json) :
    processDocument s d =
      factPut
        { s with
          leagues := s.leagues ++
            (dedupRows leagueRecordOf (fun l => l.get "id") s.league_ids (leagueCandidates d)).1
          league_ids :=
            (dedupRows leagueRecordOf (fun l => l.get "id") s.league_ids (leagueCandidates d)).2
          teams := s.teams ++
            (dedupRows (fun c => teamRecordOf (c.get "team")) teamKey s.team_ids
              (teamCandidates d)).1
          team_ids :=
            (dedupRows (fun c => teamRecordOf (c.get "team")) teamKey s.team_ids
              (teamCandidates d)).2
          venues := s.venues ++
            (dedupRows (fun c => venueRecordOf (c.get "venue")) venueKey s.venue_ids
              (docCompetitions d)).1
          venue_ids :=
            (dedupRows (fun c => venueRecordOf (c.get "venue")) venueKey s.venue_ids
              (docCompetitions d)).2
          players := s.players ++
            (playersAux s.player_ids s.position_names (athleteCandidates d)).1
          positions := s.positions ++
            (playersAux s.player_ids s.position_names (athleteCandidates d)).2.1
          player_ids := (playersAux s.player_ids s.position_names (athleteCandidates d)).2.2.1
          position_names :=
            (playersAux s.player_ids s.position_names (athleteCandidates d)).2.2.2
          game_status_types := s.game_status_types ++
            (dedupRows (fun c => statusRecordOf ((c.get "status").get "type")) statusKey
              s.status_type_ids (docCompetitions d)).1
          status_type_ids :=
            (dedupRows (fun c => statusRecordOf ((c.get "status").get "type")) statusKey
              s.status_type_ids (docCompetitions d)).2 }
        (gamesOf d) (competitionsOf d) (teamGameStatsOf d)
        (playerGameLeadersOf d) (gameBroadcastsOf d) (teamRecordsOf d) := by
  unfold processDocument
  rw [extract_leagues_eq, extract_teams_eq, extract_venues_eq, extract_players_eq,
    extract_status_eq, extract_games_eq]

/-- After one document pass every truthy league id of the document is in
the league id set. -/
theorem processDocument_league_complete (s : ProcessorState) (d : Json) :
    ∀ c ∈ leagueCandidates d, (c.get "id").isTruthy = true →
      c.get "id" ∈ (processDocument s d).league_ids := by
  intro c hc ht
  rw [processDocument_eq]
  exact dedupRows_complete _ _ _ _ _ hc ht

/-- After one document pass every truthy team id of the document is in
the team id set. -/
theorem processDocument_team_complete (s : ProcessorState) (d : Json) :
    ∀ c ∈ teamCandidates d, (teamKey c).isTruthy = true →
      teamKey c ∈ (processDocument s d).team_ids := by
  intro c hc ht
  rw [processDocument_eq]
  exact dedupRows_complete _ _ _ _ _ hc ht

/-- After one document pass every truthy venue id of the document is in
the venue id set. -/
theorem processDocument_venue_complete (s : ProcessorState) (d : Json) :
    ∀ c ∈ docCompetitions d, (venueKey c).isTruthy = true →
      venueKey c ∈ (processDocument s d).venue_ids := by
  intro c hc ht
  rw [processDocument_eq]
  exact dedupRows_complete _ _ _ _ _ hc ht

/-- After one document pass every truthy status type id of the document
is in the status type id set. -/
theorem processDocument_status_complete (s : ProcessorState) (d : Json) :
    ∀ c ∈ docCompetitions d, (statusKey c).isTruthy = true →
      statusKey c ∈ (processDocument s d).status_type_ids := by
  intro c hc ht
  rw [processDocument_eq]
  exact dedupRows_complete _ _ _ _ _ hc ht

/-- After one document pass every truthy athlete id of the document is
in the player id set. -/
theorem processDocument_player_complete (s : ProcessorState) (d : Json) :
    ∀ a ∈ athleteCandidates d, (a.get "id").isTruthy = true →
      a.get "id" ∈ (processDocument s d).player_ids := by
  intro a ha ht
  rw [processDocument_eq]
  exact playersAux_complete _ _ _ _ ha ht

/-- Passing the same document a second time leaves all six lookup
tables and all six dedup sets unchanged: every key the second pass
meets is already recorded. -/
theorem processDocument_idem_lookup (s : ProcessorState) (d : Json) :
    (processDocument (processDocument s d) d).leagues = (processDocument s d).leagues ∧
    (processDocument (processDocument s d) d).teams = (processDocument s d).teams ∧
    (processDocument (processDocument s d) d).venues = (processDocument s d).venues ∧
    (processDocument (processDocument s d) d).players = (processDocument s d).players ∧
    (processDocument (processDocument s d) d).positions = (processDocument s d).positions ∧
    (processDocument (processDocument s d) d).game_status_types =
      (processDocument s d).game_status_types := by
  set s1 := processDocument s d with hs1
  have hL : dedupRows leagueRecordOf (fun l => l.get "id") s1.league_ids (leagueCandidates d) =
      ([], s1.league_ids) :=
    dedupRows_stable _ _ _ _ (fun c hc ht => processDocument_league_complete s d c hc ht)
  have hT : dedupRows (fun c => teamRecordOf (c.get "team")) teamKey s1.team_ids
      (teamCandidates d) = ([], s1.team_ids) :=
    dedupRows_stable _ _ _ _ (fun c hc ht => processDocument_team_complete s d c hc ht)
  have hV : dedupRows (fun c => venueRecordOf (c.get "venue")) venueKey s1.venue_ids
      (docCompetitions d) = ([], s1.venue_ids) :=
    dedupRows_stable _ _ _ _ (fun c hc ht => processDocument_venue_complete s d c hc ht)
  have hS : dedupRows (fun c => statusRecordOf ((c.get "status").get "type")) statusKey
      s1.status_type_ids (docCompetitions d) = ([], s1.status_type_ids) :=
    dedupRows_stable _ _ _ _ (fun c hc ht => processDocument_status_complete s d c hc ht)
  have hP : playersAux s1.player_ids s1.position_names (athleteCandidates d) =
      ([], [], s1.player_ids, s1.position_names) :=
    playersAux_stable _ _ _ (fun a ha ht => processDocument_player_complete s d a ha ht)
  refine ⟨?_, ?_, ?_, ?_, ?_, ?_⟩ <;>
    rw [processDocument_eq, hL, hT, hV, hP, hS] <;> simp [factPut]

/-- Projections of one document pass onto the six fact tables: each
gains exactly the per-document rows, independent of the dedup state. -/
theorem processDocument_facts (s : ProcessorState) (d : Json) :
    (processDocument s d).games = s.games ++ gamesOf d ∧
    (processDocument s d).competitions = s.competitions ++ competitionsOf d ∧
    (processDocument s d).team_game_stats = s.team_game_stats ++ teamGameStatsOf d ∧
    (processDocument s d).player_game_leaders = s.player_game_leaders ++ playerGameLeadersOf d ∧
    (processDocument s d).game_broadcasts = s.game_broadcasts ++ gameBroadcastsOf d ∧
    (processDocument s d).team_records = s.team_records ++ teamRecordsOf d := by
  rw [processDocument_eq]
  exact ⟨rfl, rfl, rfl, rfl, rfl, rfl⟩

/-- C1: for every lookup table (leagues, teams, venues, players,
positions, game_status_types) and every document, processing the
document a second time leaves the lookup tables unchanged — the row
lists and hence the row counts are identical — no matter what documents
were processed before, because every natural key met by the second pass
is already recorded. -/
theorem c1_lookup_dedup_idempotent (docs : List Json) (d : Json) :
    (process_multiple_files (docs ++ [d, d])).leagues =
      (process_multiple_files (docs ++ [d])).leagues ∧
    (process_multiple_files (docs ++ [d, d])).teams =
      (process_multiple_files (docs ++ [d])).teams ∧
    (process_multiple_files (docs ++ [d, d])).venues =
      (process_multiple_files (docs ++ [d])).venues ∧
    (process_multiple_files (docs ++ [d, d])).players =
      (process_multiple_files (docs ++ [d])).players ∧
    (process_multiple_files (docs ++ [d, d])).positions =
      (process_multiple_files (docs ++ [d])).positions ∧
    (process_multiple_files (docs ++ [d, d])).game_status_types =
      (process_multiple_files (docs ++ [d])).game_status_types ∧
    (process_multiple_files (docs ++ [d, d])).leagues.length =
      (process_multiple_files (docs ++ [d])).leagues.length ∧
    (process_multiple_files (docs ++ [d, d])).teams.length =
      (process_multiple_files (docs ++ [d])).teams.length ∧
    (process_multiple_files (docs ++ [d, d])).venues.length =
      (process_multiple_files (docs ++ [d])).venues.length ∧
    (process_multiple_files (docs ++ [d, d])).players.length =
      (process_multiple_files (docs ++ [d])).players.length ∧
    (process_multiple_files (docs ++ [d, d])).positions.length =
      (process_multiple_files (docs ++ [d])).positions.length ∧
    (process_multiple_files (docs ++ [d, d])).game_status_types.length =
      (process_multiple_files (docs ++ [d])).game_status_types.length := by
  have h1 : process_multiple_files (docs ++ [d]) =
      processDocument (process_multiple_files docs) d := by
    simp [process_multiple_files, List.foldl_append]
  have h2 : process_multiple_files (docs ++ [d, d]) =
      processDocument (processDocument (process_multiple_files docs) d) d := by
    simp [process_multiple_files, List.foldl_append]
  rw [h1, h2]
  obtain ⟨e1, e2, e3, e4, e5, e6⟩ := processDocument_idem_lookup (process_multiple_files docs) d
  exact ⟨e1, e2, e3, e4, e5, e6, congrArg List.length e1, congrArg List.length e2,
    congrArg List.length e3, congrArg List.length e4, congrArg List.length e5,
    congrArg List.length e6⟩

/-- C2: for every fact table (games, competitions, team_game_stats,
player_game_leaders, game_broadcasts, team_records) and every document,
processing the document twice in a run yields exactly double the fact
row count of processing it once: fact extraction appends one row per
occurrence with no deduplication. -/
theorem c2_fact_rows_double (d : Json) :
    (process_multiple_files [d, d]).games.length =
      2 * (process_multiple_files [d]).games.length ∧
    (process_multiple_files [d, d]).competitions.length =
      2 * (process_multiple_files [d]).competitions.length ∧
    (process_multiple_files [d, d]).team_game_stats.length =
      2 * (process_multiple_files [d]).team_game_stats.length ∧
    (process_multiple_files [d, d]).player_game_leaders.length =
      2 * (process_multiple_files [d]).player_game_leaders.length ∧
    (process_multiple_files [d, d]).game_broadcasts.length =
      2 * (process_multiple_files [d]).game_broadcasts.length ∧
    (process_multiple_files [d, d]).team_records.length =
      2 * (process_multiple_files [d]).team_records.length := by
  have h1 : process_multiple_files [d] = processDocument initState d := rfl
  have h2 : process_multiple_files [d, d] =
      processDocument (processDocument initState d) d := rfl
  obtain ⟨f1, f2, f3, f4, f5, f6⟩ := processDocument_facts (processDocument initState d) d
  obtain ⟨g1, g2, g3, g4, g5, g6⟩ := processDocument_facts initState d
  refine ⟨?_, ?_, ?_, ?_, ?_, ?_⟩
  · rw [h2, h1, f1, g1]; simp [initState, Nat.two_mul]
  · rw [h2, h1, f2, g2]; simp [initState, Nat.two_mul]
  · rw [h2, h1, f3, g3]; simp [initState, Nat.two_mul]
  · rw [h2, h1, f4, g4]; simp [initState, Nat.two_mul]
  · rw [h2, h1, f5, g5]; simp [initState, Nat.two_mul]
  · rw [h2, h1, f6, g6]; simp [initState, Nat.two_mul]

/-- One document pass preserves truthiness of all recorded keys. -/
theorem processDocument_truthy (s : ProcessorState) (d : Json) (h : TruthyKeys s) :
    TruthyKeys (processDocument s d) := by
  obtain ⟨h1, h2, h3, h4, h5, h6, h7, h8, h9, h10, h11, h12⟩ := h
  rw [processDocument_eq]
  refine ⟨fun r hr => ?_, fun r hr => ?_, fun r hr => ?_, fun r hr => ?_, fun r hr => ?_,
    fun r hr => ?_, fun k hk => ?_, fun k hk => ?_, fun k hk => ?_, fun k hk => ?_,
    fun k hk => ?_, fun k hk => ?_⟩
  · rcases List.mem_append.mp hr with hin | hin
    · exact h1 r hin
    · exact dedupRows_truthy _ _ LeagueRecord.league_id (fun c => rfl) _ _ r hin
  · rcases List.mem_append.mp hr with hin | hin
    · exact h2 r hin
    · exact dedupRows_truthy _ _ TeamRecord.team_id (fun c => rfl) _ _ r hin
  · rcases List.mem_append.mp hr with hin | hin
    · exact h3 r hin
    · exact dedupRows_truthy _ _ VenueRecord.venue_id (fun c => rfl) _ _ r hin
  · rcases List.mem_append.mp hr with hin | hin
    · exact h4 r hin
    · exact (playersAux_truthy _ _ _).1 r hin
  · rcases List.mem_append.mp hr with hin | hin
    · exact h5 r hin
    · exact (playersAux_truthy _ _ _).2 r hin
  · rcases List.mem_append.mp hr with hin | hin
    · exact h6 r hin
    · exact dedupRows_truthy _ _ StatusTypeRecord.status_type_id (fun c => rfl) _ _ r hin
  · rcases dedupRows_ids_truthy leagueRecordOf (fun l => l.get "id")
      (leagueCandidates d) s.league_ids k hk with hin | ht
    · exact h7 k hin
    · exact ht
  · rcases dedupRows_ids_truthy (fun c => teamRecordOf (c.get "team")) teamKey
      (teamCandidates d) s.team_ids k hk with hin | ht
    · exact h8 k hin
    · exact ht
  · rcases dedupRows_ids_truthy (fun c => venueRecordOf (c.get "venue")) venueKey
      (docCompetitions d) s.venue_ids k hk with hin | ht
    · exact h9 k hin
    · exact ht
  · rcases (playersAux_sets_truthy (athleteCandidates d) s.player_ids s.position_names).1
      k hk with hin | ht
    · exact h10 k hin
    · exact ht
  · rcases (playersAux_sets_truthy (athleteCandidates d) s.player_ids s.position_names).2
      k hk with hin | ht
    · exact h11 k hin
    · exact ht
  · rcases dedupRows_ids_truthy (fun c => statusRecordOf ((c.get "status").get "type"))
      statusKey (docCompetitions d) s.status_type_ids k hk with hin | ht
    · exact h12 k hin
    · exact ht

/-- Folding document passes preserves truthiness of recorded keys. -/
theorem truthy_foldl :
    ∀ (docs : List Json) (s : ProcessorState), TruthyKeys s →
      TruthyKeys (docs.foldl processDocument s) := by
  intro docs
  induction docs with
  | nil => intro s h; exact h
  | cons d ds ih =>
    intro s h
    rw [List.foldl_cons]
    exact ih _ (processDocument_truthy s d h)

/-- The constructor state records no keys at all. -/
theorem initState_truthy : TruthyKeys initState := by
  refine ⟨?_, ?_, ?_, ?_, ?_, ?_, ?_, ?_, ?_, ?_, ?_, ?_⟩ <;> simp [initState]

/-- C3 fails as stated for the fact tables: a competitor with no team
object, hence an absent team identifier, still triggers one
team_game_stats row carrying a null team id, and an event with no id
still triggers one game row carrying a null event id; the rows are not
skipped. -/
theorem c3_counterexample :
    (process_multiple_files [noTeamIdDoc]).team_game_stats.length = 1 ∧
    (process_multiple_files [noTeamIdDoc]).team_game_stats.map TeamGameStatRecord.team_id =
      [Json.null] ∧
    (process_multiple_files [noTeamIdDoc]).teams = [] ∧
    (process_multiple_files [noTeamIdDoc]).games.length = 1 ∧
    (process_multiple_files [noTeamIdDoc]).games.map GameRecord.event_id = [Json.null] :=
  ⟨rfl, rfl, rfl, rfl, rfl⟩

/-- C3 amended: for every input document sequence and every lookup
table (leagues, teams, venues, players, positions, game_status_types),
an entity whose identifier is empty or absent is never recorded — it
appears neither as a table row nor in the dedup set, the sub-extraction
being silently skipped; fact-table rows, by contrast, are still
appended with a null identifier field. -/
theorem c3_lookup_missing_ids_never_recorded (docs : List Json) :
    TruthyKeys (process_multiple_files docs) :=
  truthy_foldl docs initState initState_truthy

/-- C4 fails as stated: with the leagues file unwritable, the write
phase stops at the first failing table — the error propagates, and the
subsequent eleven tables, teams among them, are not written. -/
theorem c4_counterexample :
    write_csv_files (fun n => !(n == "leagues"))
        (tablesOf (process_multiple_files [synthDoc])) = ([], some "leagues") ∧
    "teams" ∉ (write_csv_files (fun n => !(n == "leagues"))
        (tablesOf (process_multiple_files [synthDoc]))).1 :=
  ⟨rfl, by decide⟩

/-- C4 amended: if writing a single table fails during the
table-writing phase, the error is not caught per table: the tables
before the failure are written, the failure aborts the loop, the error
propagates out of the phase (process_all only logs and re-raises), and
no subsequent table is written. -/
theorem c4_write_failure_aborts (writeOk : String → Bool) (pre : List (String × Nat))
    (table_name : String) (count : Nat) (rest : List (String × Nat))
    (hpre : ∀ t ∈ pre, t.2 = 0 ∨ writeOk t.1 = true)
    (hcount : count ≠ 0) (hfail : writeOk table_name = false) :
    write_csv_files writeOk (pre ++ (table_name, count) :: rest) =
      ((pre.filter (fun t => t.2 != 0)).map Prod.fst, some table_name) := by
  induction pre with
  | nil =>
    simp [write_csv_files, hcount, hfail]
  | cons t pre ih =>
    obtain ⟨name0, cnt0⟩ := t
    have hrest : ∀ t ∈ pre, t.2 = 0 ∨ writeOk t.1 = true :=
      fun t ht => hpre t (List.mem_cons_of_mem _ ht)
    by_cases hz : cnt0 = 0
    · rw [List.cons_append]
      simp only [write_csv_files, hz, ne_eq, not_true_eq_false, if_false]
      rw [ih hrest]
      simp [List.filter_cons, hz]
    · rcases hpre (name0, cnt0) (List.mem_cons_self _ _) with hz2 | hok
      · exact absurd hz2 hz
      · rw [List.cons_append]
        simp only [write_csv_files, hz, ne_eq, not_false_eq_true, if_true, hok]
        rw [ih hrest]
        simp [List.filter_cons, hz]

/-- Witness for the amended C4 statement at a concrete table list. -/
theorem c4_write_failure_aborts_witness :
    write_csv_files (fun n => !(n == "games"))
        ([("leagues", 1), ("positions", 0)] ++ ("games", 2) :: [("competitions", 1)]) =
      ((([("leagues", 1), ("positions", 0)] : List (String × Nat)).filter
          (fun t => t.2 != 0)).map Prod.fst, some "games") :=
  c4_write_failure_aborts (fun n => !(n == "games")) [("leagues", 1), ("positions", 0)]
    "games" 2 [("competitions", 1)] (by decide) (by decide) (by decide)

/-- C5: extraction is total — one game row per event is produced even
when intermediate objects are missing — and an event lacking a week
object yields a game row whose week_number field is null, every access
level falling back to null. -/
theorem c5_missing_week_null (s : ProcessorState) (d event : Json)
    (hmem : event ∈ d.getArr "events") (hweek : event.get "week" = Json.null) :
    (processDocument s d).games = s.games ++ (d.getArr "events").map gameRecordOf ∧
    gameRecordOf event ∈ (processDocument s d).games ∧
    (gameRecordOf event).week_number = Json.null ∧
    (∀ k : String, Json.null.get k = Json.null) := by
  have hgames : (processDocument s d).games =
      s.games ++ (d.getArr "events").map gameRecordOf :=
    (processDocument_facts s d).1
  refine ⟨hgames, ?_, ?_, fun k => rfl⟩
  · rw [hgames]
    exact List.mem_append_right _ (List.mem_map_of_mem _ hmem)
  · show (event.get "week").get "number" = Json.null
    rw [hweek]
    rfl

/-- Witness for C5 at a concrete event without a week object. -/
theorem c5_missing_week_null_witness :
    (processDocument initState noWeekDoc).games =
        initState.games ++ (noWeekDoc.getArr "events").map gameRecordOf ∧
      gameRecordOf noWeekEvent ∈ (processDocument initState noWeekDoc).games ∧
      (gameRecordOf noWeekEvent).week_number = Json.null ∧
      (∀ k : String, Json.null.get k = Json.null) :=
  c5_missing_week_null initState noWeekDoc noWeekEvent (List.mem_singleton.mpr rfl) rfl

/-- C6: on the synthetic single-document scenario the extraction
produces exactly 1 league row, 1 venue row, 2 team rows, at most 2
player rows, 1 game row, 1 competition row, 2 team_game_stats rows, at
most 2 player_game_leaders rows, and 0 game_broadcasts rows. -/
theorem c6_synthetic_document_counts :
    (process_multiple_files [synthDoc]).leagues.length = 1 ∧
    (process_multiple_files [synthDoc]).venues.length = 1 ∧
    (process_multiple_files [synthDoc]).teams.length = 2 ∧
    (process_multiple_files [synthDoc]).players.length ≤ 2 ∧
    (process_multiple_files [synthDoc]).games.length = 1 ∧
    (process_multiple_files [synthDoc]).competitions.length = 1 ∧
    (process_multiple_files [synthDoc]).team_game_stats.length = 2 ∧
    (process_multiple_files [synthDoc]).player_game_leaders.length ≤ 2 ∧
    (process_multiple_files [synthDoc]).game_broadcasts.length = 0 :=
  ⟨rfl, rfl, rfl, by decide, rfl, rfl, rfl, by decide, rfl⟩

/-- C7: every broadcast row carries as its network names the list of
broadcaster names joined with a comma and a space; in particular the
names CBS and NFLN join to the text CBS, NFLN. -/
theorem c7_broadcast_names_join (s : ProcessorState) (c eid : Json) :
    (extract_game_broadcasts s c eid).game_broadcasts =
      s.game_broadcasts ++ (c.getArr "broadcasts").map (fun b => broadcastRecordOf b c eid) ∧
    (∀ b c2 e2 : Json, (broadcastRecordOf b c2 e2).network_names =
      String.intercalate ", " ((b.getArr "names").map Json.strOf)) ∧
    (broadcastRecordOf cbsNflnBroadcast c eid).network_names = "CBS, NFLN" := by
  refine ⟨?_, fun b c2 e2 => rfl, rfl⟩
  rw [extract_game_broadcasts_put]
  rfl

/-- The assembler loop accumulates one sheet per parseable file. -/
theorem sheetStep_foldl {α : Type _} (parse : String → Option α) :
    ∀ (l : List String) (acc : List (String × α)),
      l.foldl (sheetStep parse) acc =
        acc ++ l.filterMap (fun f => (parse f).map (fun t => (sheet_name (fileStem f), t))) := by
  intro l
  induction l with
  | nil => intro acc; simp
  | cons f l ih =>
    intro acc
    rw [List.foldl_cons]
    cases hp : parse f with
    | none =>
      rw [show sheetStep parse acc f = acc from by simp [sheetStep, hp]]
      rw [ih]
      simp [List.filterMap_cons, hp]
    | some t =>
      rw [show sheetStep parse acc f = acc ++ [(sheet_name (fileStem f), t)] from by
        simp [sheetStep, hp]]
      rw [ih]
      simp [List.filterMap_cons, hp, List.append_assoc]

/-- Characterization of the workbook assembler: the sheets are the
parseable files of the sorted file list, each named by sheet_name. -/
theorem csv_to_excel_eq {α : Type _} (parse : String → Option α) (files : List String) :
    csv_to_excel parse files =
      (sortedFiles files).filterMap
        (fun f => (parse f).map (fun t => (sheet_name (fileStem f), t))) := by
  unfold csv_to_excel
  rw [sheetStep_foldl]
  simp

/-- A filterMap whose values depend only on the key is a filter
followed by a map. -/
theorem filterMap_option_shape {α β γ : Type _} (p : α → Option β) (h : α → γ) :
    ∀ l : List α, l.filterMap (fun x => (p x).map (fun _ => h x)) =
      (l.filter (fun x => (p x).isSome)).map h := by
  intro l
  induction l with
  | nil => rfl
  | cons x l ih =>
    cases hp : p x with
    | none => simp [List.filterMap_cons, List.filter_cons, hp, ih]
    | some t => simp [List.filterMap_cons, List.filter_cons, hp, ih]

/-- The sorted file list is lexicographically ordered. -/
theorem sortedFiles_sorted (files : List String) :
    List.Pairwise (fun a b : String => a ≤ b) (sortedFiles files) := by
  have h := @List.sorted_mergeSort String (fun a b : String => decide (a ≤ b))
    (fun a b c h1 h2 =>
      decide_eq_true (le_trans (of_decide_eq_true h1) (of_decide_eq_true h2)))
    (fun a b => by
      rcases le_total a b with h | h
      · simp [h]
      · simp [h])
    files
  exact h.imp (fun hab => of_decide_eq_true hab)

/-- Sorting the file list only permutes it. -/
theorem sortedFiles_perm (files : List String) : (sortedFiles files).Perm files :=
  List.mergeSort_perm files _

/-- C8: every sheet is named by the stem (base name) of its source
file, kept whole when the stem has at most 31 characters and truncated
to exactly its first 31 characters when longer, and the sheets follow
the lexicographic order of the file names, extension included. -/
theorem c8_sheet_names_truncated (α : Type) (parse : String → Option α) (files : List String) :
    (csv_to_excel parse files).map Prod.fst =
      ((sortedFiles files).filter (fun f => (parse f).isSome)).map
        (fun f => sheet_name (fileStem f)) ∧
    (∀ f : String, ((fileStem f).length ≤ 31 → sheet_name (fileStem f) = fileStem f) ∧
      (31 < (fileStem f).length → sheet_name (fileStem f) = (fileStem f).take 31)) ∧
    List.Pairwise (fun a b : String => a ≤ b) (sortedFiles files) ∧
    (sortedFiles files).Perm files := by
  refine ⟨?_, fun f => ⟨fun hle => ?_, fun hgt => ?_⟩,
    sortedFiles_sorted files, sortedFiles_perm files⟩
  · rw [csv_to_excel_eq, List.map_filterMap]
    have hfg : (fun f => ((parse f).map (fun t => (sheet_name (fileStem f), t))).map Prod.fst) =
        (fun x => (parse x).map (fun _ => sheet_name (fileStem x))) := by
      funext f
      cases parse f <;> rfl
    rw [hfg, filterMap_option_shape]
  · simp [sheet_name, Nat.not_lt.mpr hle]
  · simp [sheet_name, hgt]

/-- C9: a file that fails to parse contributes no sheet and assembly
continues: the workbook holds exactly one sheet per parseable file, and
every parseable file still becomes a sheet. -/
theorem c9_parse_failure_skipped (α : Type) (parse : String → Option α) (files : List String) :
    (csv_to_excel parse files).length =
      (files.filter (fun f => (parse f).isSome)).length ∧
    (∀ (g : String) (t : α), g ∈ files → parse g = some t →
      (sheet_name (fileStem g), t) ∈ csv_to_excel parse files) := by
  constructor
  · have hlen : (csv_to_excel parse files).length =
        ((sortedFiles files).filter (fun f => (parse f).isSome)).length := by
      rw [csv_to_excel_eq]
      rw [← List.length_map ((sortedFiles files).filterMap
        (fun f => (parse f).map (fun t => (sheet_name (fileStem f), t)))) Prod.fst]
      rw [List.map_filterMap]
      have hfg : (fun f => ((parse f).map (fun t => (sheet_name (fileStem f), t))).map
            Prod.fst) =
          (fun x => (parse x).map (fun _ => sheet_name (fileStem x))) := by
        funext f
        cases parse f <;> rfl
      rw [hfg, filterMap_option_shape, List.length_map]
    rw [hlen, ((sortedFiles_perm files).filter _).length_eq]
  · intro g t hg hp
    rw [csv_to_excel_eq]
    refine List.mem_filterMap.mpr ⟨g, ?_, ?_⟩
    · exact ((sortedFiles_perm files).mem_iff).mpr hg
    · simp [hp]

/-- Witness for C9: with a parser failing on one file, the other file
still becomes a sheet. -/
theorem c9_parse_failure_skipped_witness :
    ("good", 0) ∈ csv_to_excel
      (fun f => if f == "bad.csv" then (none : Option Nat) else some 0)
      ["bad.csv", "good.csv"] :=
  (c9_parse_failure_skipped Nat
    (fun f => if f == "bad.csv" then (none : Option Nat) else some 0)
    ["bad.csv", "good.csv"]).2 "good.csv" 0 (by decide) (by rfl)

/-- Distinctness of mapped keys transfers through an append. -/
theorem nodup_map_append {α β : Type _} (l1 l2 : List α) (f : α → β)
    (h : (l1.map f ++ l2.map f).Nodup) : ((l1 ++ l2).map f).Nodup := by
  rwa [List.map_append]

/-- A membership description of a key set transfers through an append. -/
theorem mem_map_append_iff {α β : Type _} (l1 l2 : List α) (f : α → β) (ids : List β)
    (h : ∀ j, j ∈ ids ↔ j ∈ l1.map f ++ l2.map f) :
    ∀ j, j ∈ ids ↔ j ∈ (l1 ++ l2).map f := by
  intro j
  rw [List.map_append]
  exact h j

/-- extract_leagues preserves the lookup invariant. -/
theorem extract_leagues_inv (s : ProcessorState) (d : Json) (h : LookupInvariant s) :
    LookupInvariant (extract_leagues s d) := by
  obtain ⟨⟨hnd, hiff⟩, rest⟩ := h
  rw [extract_leagues_eq]
  have H := dedupRows_inv leagueRecordOf (fun l => l.get "id") LeagueRecord.league_id
    (fun c => rfl) (leagueCandidates d) s.league_ids
    (s.leagues.map LeagueRecord.league_id) hiff hnd
  exact ⟨⟨nodup_map_append _ _ _ H.1, mem_map_append_iff _ _ _ _ H.2⟩, rest⟩

/-- extract_teams_from_events preserves the lookup invariant. -/
theorem extract_teams_inv (s : ProcessorState) (d : Json) (h : LookupInvariant s) :
    LookupInvariant (extract_teams_from_events s d) := by
  obtain ⟨hL, ⟨hnd, hiff⟩, rest⟩ := h
  rw [extract_teams_eq]
  have H := dedupRows_inv (fun c => teamRecordOf (c.get "team")) teamKey TeamRecord.team_id
    (fun c => rfl) (teamCandidates d) s.team_ids
    (s.teams.map TeamRecord.team_id) hiff hnd
  exact ⟨hL, ⟨nodup_map_append _ _ _ H.1, mem_map_append_iff _ _ _ _ H.2⟩, rest⟩

/-- extract_venues_from_events preserves the lookup invariant. -/
theorem extract_venues_inv (s : ProcessorState) (d : Json) (h : LookupInvariant s) :
    LookupInvariant (extract_venues_from_events s d) := by
  obtain ⟨hL, hT, ⟨hnd, hiff⟩, rest⟩ := h
  rw [extract_venues_eq]
  have H := dedupRows_inv (fun c => venueRecordOf (c.get "venue")) venueKey VenueRecord.venue_id
    (fun c => rfl) (docCompetitions d) s.venue_ids
    (s.venues.map VenueRecord.venue_id) hiff hnd
  exact ⟨hL, hT, ⟨nodup_map_append _ _ _ H.1, mem_map_append_iff _ _ _ _ H.2⟩, rest⟩

/-- extract_players_and_positions preserves the lookup invariant. -/
theorem extract_players_inv (s : ProcessorState) (d : Json) (h : LookupInvariant s) :
    LookupInvariant (extract_players_and_positions s d) := by
  obtain ⟨hL, hT, hV, ⟨hpnd, hpiff⟩, ⟨hnnd, hniff⟩, hS⟩ := h
  rw [extract_players_eq]
  have H := playersAux_inv (athleteCandidates d) s.player_ids s.position_names
    (s.players.map PlayerRecord.player_id)
    (s.positions.map PositionRecord.position_abbreviation) hpiff hpnd hniff hnnd
  exact ⟨hL, hT, hV,
    ⟨nodup_map_append _ _ _ H.1.1, mem_map_append_iff _ _ _ _ H.1.2⟩,
    ⟨nodup_map_append _ _ _ H.2.1, mem_map_append_iff _ _ _ _ H.2.2⟩, hS⟩

/-- extract_game_status_types preserves the lookup invariant. -/
theorem extract_status_inv (s : ProcessorState) (d : Json) (h : LookupInvariant s) :
    LookupInvariant (extract_game_status_types s d) := by
  obtain ⟨hL, hT, hV, hP, hN, ⟨hnd, hiff⟩⟩ := h
  rw [extract_status_eq]
  have H := dedupRows_inv (fun c => statusRecordOf ((c.get "status").get "type")) statusKey
    StatusTypeRecord.status_type_id (fun c => rfl) (docCompetitions d) s.status_type_ids
    (s.game_status_types.map StatusTypeRecord.status_type_id) hiff hnd
  exact ⟨hL, hT, hV, hP, hN,
    ⟨nodup_map_append _ _ _ H.1, mem_map_append_iff _ _ _ _ H.2⟩⟩

/-- extract_games_and_competitions touches no lookup state, so it
preserves the lookup invariant. -/
theorem extract_games_inv (s : ProcessorState) (d : Json) (h : LookupInvariant s) :
    LookupInvariant (extract_games_and_competitions s d) := by
  rw [extract_games_eq]
  exact h

/-- One full document pass preserves the lookup invariant. -/
theorem processDocument_inv (s : ProcessorState) (d : Json) (h : LookupInvariant s) :
    LookupInvariant (processDocument s d) :=
  extract_games_inv _ _ (extract_status_inv _ _ (extract_players_inv _ _
    (extract_venues_inv _ _ (extract_teams_inv _ _ (extract_leagues_inv _ _ h)))))

/-- Folding document passes preserves the lookup invariant. -/
theorem inv_foldl :
    ∀ (docs : List Json) (s : ProcessorState), LookupInvariant s →
      LookupInvariant (docs.foldl processDocument s) := by
  intro docs
  induction docs with
  | nil => intro s h; exact h
  | cons d ds ih =>
    intro s h
    rw [List.foldl_cons]
    exact ih _ (processDocument_inv s d h)

/-- The constructor state satisfies the lookup invariant. -/
theorem initState_inv : LookupInvariant initState := by
  refine ⟨⟨?_, ?_⟩, ⟨?_, ?_⟩, ⟨?_, ?_⟩, ⟨?_, ?_⟩, ⟨?_, ?_⟩, ⟨?_, ?_⟩⟩ <;> simp [initState]

/-- C10: each lookup table holds pairwise-distinct natural keys and its
companion dedup set holds exactly the keys present in the table — the
invariant is preserved by every extraction step and holds after
processing any sequence of documents. -/
theorem c10_lookup_invariant :
    (∀ (s : ProcessorState) (d : Json), LookupInvariant s →
      LookupInvariant (extract_leagues s d)) ∧
    (∀ (s : ProcessorState) (d : Json), LookupInvariant s →
      LookupInvariant (extract_teams_from_events s d)) ∧
    (∀ (s : ProcessorState) (d : Json), LookupInvariant s →
      LookupInvariant (extract_venues_from_events s d)) ∧
    (∀ (s : ProcessorState) (d : Json), LookupInvariant s →
      LookupInvariant (extract_players_and_positions s d)) ∧
    (∀ (s : ProcessorState) (d : Json), LookupInvariant s →
      LookupInvariant (extract_game_status_types s d)) ∧
    (∀ (s : ProcessorState) (d : Json), LookupInvariant s →
      LookupInvariant (extract_games_and_competitions s d)) ∧
    (∀ docs : List Json, LookupInvariant (process_multiple_files docs)) :=
  ⟨extract_leagues_inv, extract_teams_inv, extract_venues_inv, extract_players_inv,
    extract_status_inv, extract_games_inv,
    fun docs => inv_foldl docs initState initState_inv⟩

/-- Witness for C10 at the constructor state and a concrete document. -/
theorem c10_lookup_invariant_witness :
    LookupInvariant (extract_leagues initState synthDoc) :=
  c10_lookup_invariant.1 initState synthDoc
    (by refine ⟨⟨?_, ?_⟩, ⟨?_, ?_⟩, ⟨?_, ?_⟩, ⟨?_, ?_⟩, ⟨?_, ?_⟩, ⟨?_, ?_⟩⟩ <;> simp [initState])

/-- Witness for C8 at a concrete file name with a 32-character stem. -/
theorem c8_sheet_names_truncated_witness :
    sheet_name (fileStem "abcdefghijklmnopqrstuvwxyz012345.csv") =
      (fileStem "abcdefghijklmnopqrstuvwxyz012345.csv").take 31 :=
  ((c8_sheet_names_truncated Nat (fun _ => some 0) []).2.1
    "abcdefghijklmnopqrstuvwxyz012345.csv").2 (by decide)
